import Mathlib

/-!
Verification of the token-driven style engine of `mh_style.py` (MISS_HIT
style checker).  The Python source is embedded shallowly: pure data
(tokens, fix records, locations, diagnostics) becomes Lean structures,
the three analysis stages become Lean functions, and the mutable token
buffer of stage 3 becomes explicit state passing over a list of tokens.
Machine integers are modelled as `Int`/`Nat` (Python integers are
unbounded so no overflow handling is needed).  External collaborators
(lexer, parser) are modelled from the specification where noted.
-/

/-! ## Basic string helpers (Python semantics) -/

/-- Python `str.isspace` characters relevant to `str.strip()`:
space, tab, newline, carriage return, vertical tab, form feed. -/
def pyIsWs (c : Char) : Bool :=
  c == ' ' || c == '\t' || c == '\n' || c == '\r' ||
  c == Char.ofNat 11 || c == Char.ofNat 12

/-- Python `str.strip()` on a character list. -/
def pyStripL (l : List Char) : List Char :=
  ((l.dropWhile pyIsWs).reverse.dropWhile pyIsWs).reverse

/-- Python `str.strip()`. -/
def pyStrip (s : String) : String :=
  String.mk (pyStripL s.data)

/-- Python `str.rstrip()` on a character list. -/
def pyRstripL (l : List Char) : List Char :=
  (l.reverse.dropWhile pyIsWs).reverse

/-- Python `str.lstrip(c)` for a single strip character `c`. -/
def pyLstripChar (c : Char) (l : List Char) : List Char :=
  l.dropWhile (· == c)

/-- `needle` is a prefix of `hay` (character lists). -/
def isPrefixOfL : List Char → List Char → Bool
  | [], _ => true
  | _ :: _, [] => false
  | a :: as, b :: bs => a == b && isPrefixOfL as bs

/-- Python `needle in hay` substring test on character lists. -/
def containsSub (hay needle : List Char) : Bool :=
  if isPrefixOfL needle hay then true
  else
    match hay with
    | [] => false
    | _ :: t => containsSub t needle

/-- Lower-case a character list (Python `str.lower`, ASCII fragment). -/
def lowerL (l : List Char) : List Char :=
  l.map Char.toLower

/-- Modelled from the spec: the lexer's `context_line` list, "text split
on newline, preserving empty trailing elements as in standard
line-splitting" (the lexer itself is an external collaborator). -/
def splitNl : List Char → List (List Char)
  | [] => [[]]
  | c :: cs =>
    if c == '\n' then [] :: splitNl cs
    else
      match splitNl cs with
      | [] => [[c]]
      | h :: t => (c :: h) :: t

/-- Modelled from the spec: line list of a file's text. -/
def splitLines (s : String) : List String :=
  (splitNl s.data).map String.mk

/-- Index of the first occurrence of `c` (Python `str.index`, callers
guard that `c` occurs). -/
def firstIdx (c : Char) : List Char → Nat
  | [] => 0
  | x :: xs => if x == c then 0 else firstIdx c xs + 1

/-! ## Data model -/

/-- A source location as carried by diagnostics and tokens
(`errors.Location`): filename, line, column span, context line.
Fields the Python code leaves unset default to `0` / `""`. -/
structure Location where
  filename : String
  line : Nat
  col_start : Int := 0
  col_end : Int := 0
  context : String := ""
deriving DecidableEq

/-- The mutable fix record attached to each token (`fix` in the source;
`Fix` is taken in Lean).  The first block are replayer directives
written by stage 3; the second block are semantic classifiers computed
by the parser and only read by stage 3. -/
structure FixRec where
  ensure_ws_before : Bool := false
  ensure_ws_after : Bool := false
  ensure_trim_before : Bool := false
  ensure_trim_after : Bool := false
  add_newline : Bool := false
  replace_with_newline : Bool := false
  delete : Bool := false
  correct_indent : Option Int := none
  unary_operator : Bool := false
  binary_operator : Bool := false
  statement_terminator : Bool := false
  flag_continuations : Bool := false
deriving DecidableEq

/-- The part of an AST node stage 3 consults through `ast_link`
(the parser is an external collaborator). -/
structure AstInfo where
  causes_indentation : Bool
  get_indentation : Int
deriving DecidableEq

/-- A token of the token buffer (`m_lexer` token contract, §6 of the
spec): kind, value, raw text, location, positional flags, `anonymous`
flag, block-comment flag, AST link and fix record. -/
structure Token where
  kind : String
  value : String := ""
  raw_text : String := ""
  location : Location
  first_in_line : Bool := false
  first_in_statement : Bool := false
  anonymous : Bool := false
  block_comment : Bool := false
  ast_link : Option AstInfo := none
  fix : FixRec := {}
deriving DecidableEq

/-- A style diagnostic as recorded by `Message_Handler.style_issue`:
location, message, and whether an auto-fix was scheduled. -/
structure Diagnostic where
  location : Location
  message : String
  fixed : Bool
deriving DecidableEq

/-- The configuration the engine reads.  `active` models
`config.active(cfg, name)` (the configuration loader is an external
collaborator); the remaining fields are the keys read directly. -/
structure Cfg where
  active : String → Bool
  copyright_entity : List String
  copyright_in_embedded_code : Bool
  tab_width : Nat
  file_length : Nat
  line_length : Nat

/-! ## Rule registry and library (`get_rules`, `build_library`) -/

/-- Metadata of one style rule instance: its configuration name, the
`mandatory` flag and the `autofix` flag. -/
structure RuleDescr where
  name : String
  mandatory : Bool
  autofix : Bool
deriving DecidableEq

/-- `Rule_File_Length`. -/
def rule_file_length : RuleDescr := ⟨"file_length", false, false⟩

/-- `Rule_File_EOF_Lines` (mandatory, autofix). -/
def rule_eof_newlines : RuleDescr := ⟨"eof_newlines", true, true⟩

/-- `Rule_Line_Length`. -/
def rule_line_length : RuleDescr := ⟨"line_length", false, false⟩

/-- `Rule_Line_Blank_Lines` (mandatory, autofix). -/
def rule_consecutive_blanks : RuleDescr := ⟨"consecutive_blanks", true, true⟩

/-- `Rule_Line_Tabs` (mandatory, autofix). -/
def rule_tabs : RuleDescr := ⟨"tabs", true, true⟩

/-- `Rule_Line_Trailing_Whitesapce` (mandatory, autofix). -/
def rule_trailing_whitespace : RuleDescr := ⟨"trailing_whitespace", true, true⟩

/-- `get_rules()["on_file"]`: the leaf subclasses of `Style_Rule_File`. -/
def get_rules_on_file : List RuleDescr :=
  [rule_file_length, rule_eof_newlines]

/-- `get_rules()["on_line"]`: the leaf subclasses of `Style_Rule_Line`. -/
def get_rules_on_line : List RuleDescr :=
  [rule_line_length, rule_consecutive_blanks, rule_tabs,
   rule_trailing_whitespace]

/-- `build_library`: keep a rule instance when it is mandatory or the
configuration activates it by name (`mh_style.py` line 317). -/
def build_library (cfg : Cfg) (rules : List RuleDescr) : List RuleDescr :=
  rules.filter (fun r => r.mandatory || cfg.active r.name)

/-! ## Stage 1: file rules -/

/-- `Rule_File_EOF_Lines.apply` (`mh_style.py` lines 120-130). -/
def Rule_File_EOF_Lines_apply (filename : String) (full_text : String)
    (lines : List String) : List Diagnostic :=
  if lines.length ≥ 2 ∧ lines.getLast? = some "" then
    [⟨{ filename := filename, line := lines.length },
      "trailing blank lines at end of file", true⟩]
  else if full_text.length ≠ 0 ∧ full_text.data.getLast? ≠ some '\n' then
    [⟨{ filename := filename, line := lines.length },
      "file should end with a new line", true⟩]
  else []

/-- `Rule_File_Length.apply` (`mh_style.py` lines 99-104). -/
def Rule_File_Length_apply (cfg : Cfg) (filename : String)
    (lines : List String) : List Diagnostic :=
  if lines.length > cfg.file_length then
    [⟨{ filename := filename, line := lines.length },
      "file exceeds " ++ toString cfg.file_length ++ " lines", false⟩]
  else []

/-- Dispatch a stage-1 rule of the built library by name. -/
def fileRuleApply (r : RuleDescr) (cfg : Cfg) (filename : String)
    (full_text : String) (lines : List String) : List Diagnostic :=
  if r.name == "file_length" then Rule_File_Length_apply cfg filename lines
  else if r.name == "eof_newlines" then
    Rule_File_EOF_Lines_apply filename full_text lines
  else []

/-- Stage 1: apply every file rule of the library in order. -/
def stage1 (lib : List RuleDescr) (cfg : Cfg) (filename : String)
    (full_text : String) (lines : List String) : List Diagnostic :=
  lib.foldl (fun acc r => acc ++ fileRuleApply r cfg filename full_text lines) []

/-! ## Stage 2: line rules -/

/-- `Rule_Line_Length.apply` (`mh_style.py` lines 159-167). -/
def Rule_Line_Length_apply (cfg : Cfg) (filename : String) (lineNo : Nat)
    (line : String) : List Diagnostic :=
  if line.length > cfg.line_length then
    [⟨{ filename := filename, line := lineNo,
        col_start := (cfg.line_length : Int), col_end := (line.length : Int),
        context := line },
      "line exceeds " ++ toString cfg.line_length ++ " characters", false⟩]
  else []

/-- `Rule_Line_Blank_Lines.apply` (`mh_style.py` lines 183-192); the
rolling `is_blank` state is passed and returned explicitly. -/
def Rule_Line_Blank_Lines_apply (filename : String) (lineNo : Nat)
    (line : String) (is_blank : Bool) : List Diagnostic × Bool :=
  if (pyStrip line).length ≠ 0 then ([], false)
  else if is_blank then
    ([⟨{ filename := filename, line := lineNo },
       "more than one consecutive blank line", true⟩], is_blank)
  else ([], true)

/-- `Rule_Line_Tabs.apply` (`mh_style.py` lines 237-245). -/
def Rule_Line_Tabs_apply (filename : String) (lineNo : Nat)
    (line : String) : List Diagnostic :=
  if line.data.contains '\t' then
    [⟨{ filename := filename, line := lineNo,
        col_start := (firstIdx '\t' line.data : Int),
        col_end := (firstIdx '\t' line.data : Int), context := line },
      "tab is not allowed", true⟩]
  else []

/-- `Rule_Line_Trailing_Whitesapce.apply` (`mh_style.py` lines 262-276). -/
def Rule_Line_Trailing_Whitespace_apply (filename : String) (lineNo : Nat)
    (line : String) : List Diagnostic :=
  if line.data.getLast? == some ' ' then
    if (pyStrip line).length == 0 then
      [⟨{ filename := filename, line := lineNo },
        "whitespace on blank line", true⟩]
    else
      [⟨{ filename := filename, line := lineNo,
          col_start := ((pyRstripL line.data).length : Int),
          col_end := (line.length : Int), context := line },
        "trailing whitespace", true⟩]
  else []

/-- Dispatch a stage-2 rule of the built library by name, threading the
blank-line state of `consecutive_blanks`. -/
def lineRuleApply (r : RuleDescr) (cfg : Cfg) (filename : String)
    (lineNo : Nat) (line : String) (is_blank : Bool) :
    List Diagnostic × Bool :=
  if r.name == "line_length" then
    (Rule_Line_Length_apply cfg filename lineNo line, is_blank)
  else if r.name == "consecutive_blanks" then
    Rule_Line_Blank_Lines_apply filename lineNo line is_blank
  else if r.name == "tabs" then
    (Rule_Line_Tabs_apply filename lineNo line, is_blank)
  else if r.name == "trailing_whitespace" then
    (Rule_Line_Trailing_Whitespace_apply filename lineNo line, is_blank)
  else ([], is_blank)

/-- Stage 2, one line: apply every line rule of the library in order. -/
def stage2_line (lib : List RuleDescr) (cfg : Cfg) (filename : String)
    (lineNo : Nat) (line : String) (acc : List Diagnostic × Bool) :
    List Diagnostic × Bool :=
  lib.foldl
    (fun st r =>
      let res := lineRuleApply r cfg filename lineNo line st.2
      (st.1 ++ res.1, res.2))
    acc

/-- Stage 2: apply the line rules to each physical line
(`enumerate(lexer.context_line, 1)`). -/
def stage2 (lib : List RuleDescr) (cfg : Cfg) (filename : String)
    (lines : List String) : List Diagnostic :=
  (List.foldl
    (fun (st : List Diagnostic × Bool × Nat) line =>
      let res := stage2_line lib cfg filename st.2.2 line (st.1, st.2.1)
      (res.1, res.2, st.2.2 + 1))
    ([], false, 1) lines).1

/-! ## Stage 3: the token analyzer (`stage_3_analysis`) -/

/-- `[a-zA-Z]` of the Python regexes. -/
def asciiAlpha (c : Char) : Bool :=
  ('a' ≤ c && c ≤ 'z') || ('A' ≤ c && c ≤ 'Z')

/-- `[0-9]`. -/
def asciiDigit (c : Char) : Bool :=
  '0' ≤ c && c ≤ '9'

/-- Drop the greedy run of literal spaces (` *` in the regex). -/
def dropSpacesL (l : List Char) : List Char :=
  l.dropWhile (· == ' ')

/-- The tail of `COPYRIGHT_REGEX` after the literal `Copyright `:
`(\d\d\d\d-)?\d\d\d\d *(?P<org>.*)`, returning the `org` capture.
Backtracking: the optional year-range group is preferred; if its second
year fails, the four digits already read serve as the bare year. -/
def copyrightMatchYear : List Char → Option (List Char)
  | a :: b :: c :: d :: rest =>
    if asciiDigit a && asciiDigit b && asciiDigit c && asciiDigit d then
      match rest with
      | '-' :: e :: f :: g :: h :: rest2 =>
        if asciiDigit e && asciiDigit f && asciiDigit g && asciiDigit h then
          some (dropSpacesL rest2)
        else some (dropSpacesL rest)
      | _ => some (dropSpacesL rest)
    else none
  | _ => none

/-- Match `Copyright ` followed by the year part, at this position. -/
def copyrightMatchCR (l : List Char) : Option (List Char) :=
  if isPrefixOfL "Copyright ".data l then copyrightMatchYear (l.drop 10)
  else none

/-- Match `(\(c\) )?Copyright ...` at this position (the optional
`(c) ` prefix is preferred, as the regex group is greedy). -/
def copyrightMatchHere (l : List Char) : Option (List Char) :=
  if isPrefixOfL "(c) ".data l then
    match copyrightMatchCR (l.drop 4) with
    | some org => some org
    | none => copyrightMatchCR l
  else copyrightMatchCR l

/-- `re.search(COPYRIGHT_REGEX, value)`: leftmost match, returning the
`org` capture group. -/
def copyrightSearch (l : List Char) : Option (List Char) :=
  match copyrightMatchHere l with
  | some org => some org
  | none =>
    match l with
    | [] => none
    | _ :: t => copyrightSearch t

/-- `KEYWORDS_WITH_WS` (`mh_style.py` lines 326-344). -/
def KEYWORDS_WITH_WS : List String :=
  ["case", "catch", "classdef", "elseif", "for", "function", "global",
   "if", "parfor", "persistent", "switch", "while",
   "properties", "methods", "events"]

/-- The apostrophe character (suffix operator spelling). -/
def apostc : Char := Char.ofNat 39

/-- The suffix operators `.'` and `'`. -/
def suffixOps : List String := [String.mk ['.', apostc], String.mk [apostc]]

/-- The power operators `.^` and `^`. -/
def powerOps : List String := [".^", "^"]

/-- The mutable state of the stage-3 loop: the token buffer (tokens are
mutated in place in Python), the diagnostic sink contents, and the
local variables of `stage_3_analysis`. -/
structure S3State where
  tokens : List Token
  diags : List Diagnostic
  justifications : List Token
  in_copyright_notice : Bool
  company_copyright_found : Bool
  generic_copyright_found : Bool
  copyright_token : Option Token
  copyright_notice : List String
  statement_start_token : Option Token
  current_indent : Int
  enclosing_ast : Option AstInfo
deriving DecidableEq

/-- In-place update of the token at index `n` (no-op out of range). -/
def listModify (f : Token → Token) : Nat → List Token → List Token
  | _, [] => []
  | 0, t :: ts => f t :: ts
  | n + 1, t :: ts => t :: listModify f n ts

/-- Mutate the fix record of token `n`. -/
def setTokFix (s : S3State) (n : Nat) (f : FixRec → FixRec) : S3State :=
  { s with tokens := listModify (fun t => { t with fix := f t.fix }) n s.tokens }

/-- Mutate the raw text of token `n`. -/
def setTokRaw (s : S3State) (n : Nat) (r : String) : S3State :=
  { s with tokens := listModify (fun t => { t with raw_text := r }) n s.tokens }

/-- `mh.style_issue(...)`: append a diagnostic to the sink. -/
def emit (s : S3State) (d : Diagnostic) : S3State :=
  { s with diags := s.diags ++ [d] }

/-- `tbuf.tokens[n - 1]` if it exists. -/
def prevTokenAt (toks : List Token) : Nat → Option Token
  | 0 => none
  | n + 1 => toks.get? n

/-- `prev_in_line` with its `ws_before` gap (`mh_style.py` lines
376-384): the previous token when on the same physical line. -/
def prevInLine (toks : List Token) (n : Nat) : Option (Token × Int) :=
  match toks.get? n, prevTokenAt toks n with
  | some tok, some p =>
    if p.location.line == tok.location.line then
      some (p, tok.location.col_start - p.location.col_end - 1)
    else none
  | _, _ => none

/-- `next_in_line` with its `ws_after` gap (`mh_style.py` lines
386-397): the next token when on the same line and not a newline. -/
def nextInLine (toks : List Token) (n : Nat) : Option (Token × Int) :=
  match toks.get? n, toks.get? (n + 1) with
  | some tok, some nx =>
    if nx.location.line == tok.location.line then
      if nx.kind == "NEWLINE" then none
      else some (nx, nx.location.col_start - tok.location.col_end - 1)
    else none
  | _, _ => none

/-- `ws_... == k` under the guard that the neighbour is in line. -/
def wsEqB (o : Option (Token × Int)) (k : Int) : Bool :=
  match o with
  | some (_, w) => w == k
  | none => false

/-- `ws_... > k` under the guard that the neighbour is in line. -/
def wsGtB (o : Option (Token × Int)) (k : Int) : Bool :=
  match o with
  | some (_, w) => decide (k < w)
  | none => false

/-- Statement-start tracking (`mh_style.py` lines 401-424). -/
def s3_track (s : S3State) (token : Token) : S3State :=
  if token.first_in_statement then
    let e : Option AstInfo :=
      match s.statement_start_token with
      | some sst =>
        if sst.kind == "KEYWORD" && sst.value == "end" then none
        else
          match sst.ast_link with
          | some a => if a.causes_indentation then some a else s.enclosing_ast
          | none => s.enclosing_ast
      | none => s.enclosing_ast
    { s with enclosing_ast := e, statement_start_token := some token }
  else s

/-- Justification recognition (`mh_style.py` lines 427-429). -/
def s3_justify (s : S3State) (token : Token) : S3State :=
  if (token.kind == "COMMENT" || token.kind == "CONTINUATION") &&
      containsSub token.value.data "mh:ignore_style".data then
    { s with justifications := s.justifications ++ [token] }
  else s

/-- The diagnostics emitted when the copyright header ends
(`mh_style.py` lines 466-489).  In the `generic_copyright_found` case
`copyright_token` is always set; the `none` fallback mirrors a path
Python cannot reach. -/
def copyrightEndDiags (cfg : Cfg) (s : S3State) (token : Token) :
    List Diagnostic :=
  if s.copyright_notice.isEmpty then
    [⟨token.location,
      "file does not appear to contain any copyright header", false⟩]
  else if s.company_copyright_found then []
  else if s.generic_copyright_found then
    if !cfg.copyright_entity.isEmpty then
      [⟨(match s.copyright_token with
         | some ct => ct.location
         | none => token.location),
        "Copyright does not mention one of " ++
          " or ".intercalate cfg.copyright_entity, false⟩]
    else []
  else
    match s.copyright_token with
    | some ct => [⟨ct.location, "Copyright notice not in right format", false⟩]
    | none => [⟨token.location, "No copyright notice found in header", false⟩]

/-- The loose fallback scan for something that could be a copyright
notice (`mh_style.py` lines 446-456). -/
def looseCopyrightHit (cfg : Cfg) (value : String) : Bool :=
  cfg.copyright_entity.any
    (fun org => containsSub (lowerL value.data) (lowerL org.data)) ||
  containsSub (lowerL value.data) "(c)".data ||
  containsSub (lowerL value.data) "copyright".data

/-- Copyright header recognition (`mh_style.py` lines 436-489). -/
def s3_copyright (cfg : Cfg) (s : S3State) (token : Token) : S3State :=
  if s.in_copyright_notice then
    if token.kind == "COMMENT" then
      match copyrightSearch token.value.data with
      | some org =>
        { s with
          copyright_token := some token,
          generic_copyright_found := true,
          company_copyright_found := s.company_copyright_found ||
            cfg.copyright_entity.contains (String.mk (pyStripL org)),
          copyright_notice := s.copyright_notice ++ [token.value] }
      | none =>
        let s1 :=
          if s.copyright_token.isNone && looseCopyrightHit cfg token.value
          then { s with copyright_token := some token }
          else s
        { s1 with copyright_notice := s1.copyright_notice ++ [token.value] }
    else
      { s with
        in_copyright_notice := false,
        diags := s.diags ++ copyrightEndDiags cfg s token }
  else s

/-- COMMA branch (`mh_style.py` lines 495-505). -/
def kindComma (cfg : Cfg) (s : S3State) (token : Token) (n : Nat)
    (pinl ninl : Option (Token × Int)) : S3State :=
  if cfg.active "whitespace_comma" then
    let s1 := setTokFix s n
      (fun fx => { fx with ensure_trim_before := true, ensure_ws_after := true })
    if wsEqB ninl 0 || wsGtB pinl 0 then
      emit s1 ⟨token.location,
        "comma cannot be preceeded by whitespace and must be followed by whitespace",
        true⟩
    else s1
  else s

/-- COLON branch (`mh_style.py` lines 507-529). -/
def kindColon (cfg : Cfg) (s : S3State) (token : Token) (n : Nat)
    (pinl ninl : Option (Token × Int)) : S3State :=
  if cfg.active "whitespace_colon" then
    if (match pinl with
        | some (p, _) => p.kind == "COMMA"
        | none => false) then s
    else if (match ninl with
             | some (nx, _) => nx.kind == "CONTINUATION"
             | none => false) then
      if wsGtB pinl 0 then
        emit (setTokFix s n (fun fx => { fx with ensure_trim_before := true }))
          ⟨token.location, "no whitespace before colon", true⟩
      else s
    else if wsGtB pinl 0 || wsGtB ninl 0 then
      emit (setTokFix s n
        (fun fx => { fx with ensure_trim_before := true,
                             ensure_trim_after := true }))
        ⟨token.location, "no whitespace around colon allowed", true⟩
    else s
  else s

/-- ASSIGNMENT branch (`mh_style.py` lines 532-544); note the `elif`:
at most one of the two sides is diagnosed. -/
def kindAssignment (cfg : Cfg) (s : S3State) (token : Token) (n : Nat)
    (pinl ninl : Option (Token × Int)) : S3State :=
  if cfg.active "whitespace_assignment" then
    let s1 := setTokFix s n
      (fun fx => { fx with ensure_ws_before := true, ensure_ws_after := true })
    if wsEqB pinl 0 then
      emit s1 ⟨token.location, "= must be preceeded by whitespace", true⟩
    else if wsEqB ninl 0 then
      emit s1 ⟨token.location, "= must be succeeded by whitespace", true⟩
    else s1
  else s

/-- BRA / A_BRA / M_BRA branch (`mh_style.py` lines 548-556). -/
def kindOpenBracket (cfg : Cfg) (s : S3State) (token : Token) (n : Nat)
    (ninl : Option (Token × Int)) : S3State :=
  if cfg.active "whitespace_brackets" && wsGtB ninl 0 &&
      (match ninl with
       | some (nx, _) => nx.kind != "CONTINUATION"
       | none => false) then
    setTokFix
      (emit s ⟨token.location,
        token.raw_text ++ " must not be followed by whitespace", true⟩)
      n (fun fx => { fx with ensure_trim_after := true })
  else s

/-- KET / A_KET / M_KET branch (`mh_style.py` lines 558-565). -/
def kindCloseBracket (cfg : Cfg) (s : S3State) (token : Token) (n : Nat)
    (pinl : Option (Token × Int)) : S3State :=
  if cfg.active "whitespace_brackets" && wsGtB pinl 0 then
    setTokFix
      (emit s ⟨token.location,
        token.raw_text ++ " must not be preceeded by whitespace", true⟩)
      n (fun fx => { fx with ensure_trim_before := true })
  else s

/-- KEYWORD branch (`mh_style.py` lines 568-575). -/
def kindKeywordWs (cfg : Cfg) (s : S3State) (token : Token) (n : Nat)
    (ninl : Option (Token × Int)) : S3State :=
  if cfg.active "whitespace_keywords" && wsEqB ninl 0 then
    setTokFix
      (emit s ⟨token.location, "keyword must be succeeded by whitespace", true⟩)
      n (fun fx => { fx with ensure_ws_after := true })
  else s

/-- `^%#[a-zA-Z]`. -/
def matchPragmaNoWs : List Char → Bool
  | '%' :: '#' :: c :: _ => asciiAlpha c
  | _ => false

/-- ` *[a-zA-Z]$`-style helper: spaces already begun, then a letter. -/
def spacesAlphaCont : List Char → Bool
  | [] => false
  | ' ' :: rest => spacesAlphaCont rest
  | c :: _ => asciiAlpha c

/-- `^%# +[a-zA-Z]`. -/
def matchPragmaGap : List Char → Bool
  | '%' :: '#' :: ' ' :: rest => spacesAlphaCont (' ' :: rest)
  | _ => false

/-- Helper for `^% +#[a-zA-Z]`: spaces then `#` then a letter. -/
def hashAlphaCont : List Char → Bool
  | ' ' :: rest => hashAlphaCont rest
  | '#' :: c :: _ => asciiAlpha c
  | _ => false

/-- `^% +#[a-zA-Z]`. -/
def matchFixedPragma : List Char → Bool
  | '%' :: ' ' :: rest => hashAlphaCont (' ' :: rest)
  | _ => false

/-- Python `raw_text.split("#", 1)[1]`. -/
def afterFirstHash (l : List Char) : List Char :=
  (l.dropWhile (fun c => c != '#')).drop 1

/-- Comment-hygiene dispatch of the COMMENT branch (`mh_style.py`
lines 580-630): pragmas and block comments are left alone, misshapen
pragmas and unseparated comment bodies are diagnosed and rewritten. -/
def commentHygiene (cc : List Char) (s : S3State) (token : Token)
    (n : Nat) : S3State :=
  let raw := token.raw_text.data
  let comment_char := raw.headD '%'
  let comment_body := pyLstripChar comment_char raw
  if matchPragmaNoWs raw then s
  else if isPrefixOfL "%|".data raw then s
  else if token.block_comment then s
  else if cc.any (fun c =>
      pyStripL raw == [c, '{'] || pyStripL raw == [c, '}']) then s
  else if matchPragmaGap raw then
    setTokRaw
      (emit s ⟨token.location,
        "MATLAB pragma must not contain whitespace between %# and the pragma",
        true⟩)
      n (String.mk ('%' :: '#' :: pyStripL (raw.drop 2)))
  else if matchFixedPragma raw then
    setTokRaw
      (emit s ⟨token.location,
        "MATLAB pragma must not contain whitespace between % and the pragma",
        true⟩)
      n (String.mk ('%' :: '#' :: afterFirstHash raw))
  else if (match comment_body with
           | [] => false
           | c :: _ => c != ' ') then
    setTokRaw
      (emit s ⟨token.location,
        "comment body must be separated with whitespace from the starting " ++
          String.mk [comment_char], true⟩)
      n (String.mk (List.replicate (raw.length - comment_body.length)
          comment_char ++ ' ' :: comment_body))
  else s

/-- COMMENT branch (`mh_style.py` lines 578-637): hygiene dispatch,
then whitespace before an inline comment. -/
def kindComment (cfg : Cfg) (cc : List Char) (s : S3State) (token : Token)
    (n : Nat) (pinl : Option (Token × Int)) : S3State :=
  if cfg.active "whitespace_comments" then
    let s1 := commentHygiene cc s token n
    if wsEqB pinl 0 then
      setTokFix
        (emit s1 ⟨token.location, "comment must be preceeded by whitespace", true⟩)
        n (fun fx => { fx with ensure_ws_before := true })
    else s1
  else s

/-- `whitespace_continuation` check (`mh_style.py` lines 640-646). -/
def contWsCheck (cfg : Cfg) (s : S3State) (token : Token) (n : Nat)
    (pinl : Option (Token × Int)) : S3State :=
  if cfg.active "whitespace_continuation" && wsEqB pinl 0 then
    setTokFix
      (emit s ⟨token.location,
        "continuation must be preceeded by whitespace", true⟩)
      n (fun fx => { fx with ensure_ws_before := true })
  else s

/-- `operator_after_continuation` check (`mh_style.py` lines 648-656). -/
def contOpCheck (cfg : Cfg) (s : S3State) (nextTok : Option Token) : S3State :=
  match nextTok with
  | some nx =>
    if cfg.active "operator_after_continuation" && nx.first_in_line &&
        nx.kind == "OPERATOR" && nx.fix.binary_operator then
      emit s ⟨nx.location,
        "continuations should not start with binary operators", false⟩
    else s
  | none => s

/-- `useless_continuation` check (`mh_style.py` lines 658-670): a
continuation before a newline or comment is replaced with a newline;
otherwise one after a statement terminator is deleted. -/
def contUselessCheck (cfg : Cfg) (s : S3State) (token : Token) (n : Nat)
    (prevTok nextTok : Option Token) : S3State :=
  if cfg.active "useless_continuation" then
    if (match nextTok with
        | some nx => nx.kind == "NEWLINE" || nx.kind == "COMMENT"
        | none => false) then
      setTokFix
        (emit s ⟨token.location, "useless line continuation", true⟩)
        n (fun fx => { fx with replace_with_newline := true })
    else if (match prevTok with
             | some p => p.fix.statement_terminator
             | none => false) then
      setTokFix
        (emit s ⟨token.location, "useless line continuation", true⟩)
        n (fun fx => { fx with delete := true })
    else s
  else s

/-- CONTINUATION branch (`mh_style.py` lines 639-670): three
independent checks in sequence. -/
def kindContinuation (cfg : Cfg) (s : S3State) (token : Token) (n : Nat)
    (pinl : Option (Token × Int)) (prevTok nextTok : Option Token) : S3State :=
  contUselessCheck cfg
    (contOpCheck cfg (contWsCheck cfg s token n pinl) nextTok)
    token n prevTok nextTok

/-- OPERATOR branch (`mh_style.py` lines 672-731); the
`implicit_shortcircuit` block is a no-op in the source. -/
def kindOperator (cfg : Cfg) (s : S3State) (token : Token) (n : Nat)
    (pinl ninl : Option (Token × Int)) : S3State :=
  if !cfg.active "operator_whitespace" then s
  else if token.fix.unary_operator then
    if wsGtB pinl 0 && suffixOps.contains token.value then
      setTokFix
        (emit s ⟨token.location,
          "suffix operator must not be preceeded by whitespace", true⟩)
        n (fun fx => { fx with ensure_trim_before := true })
    else if wsGtB ninl 0 && !suffixOps.contains token.value then
      setTokFix
        (emit s ⟨token.location,
          "unary operator must not be followed by whitespace", true⟩)
        n (fun fx => { fx with ensure_trim_after := true })
    else s
  else if token.fix.binary_operator then
    if powerOps.contains token.value then
      if wsGtB pinl 0 || wsGtB ninl 0 then
        setTokFix
          (emit s ⟨token.location,
            "power binary operator must not be surrounded by whitespace", true⟩)
          n (fun fx => { fx with ensure_trim_before := true,
                                 ensure_trim_after := true })
      else s
    else
      if wsEqB pinl 0 || wsEqB ninl 0 then
        setTokFix
          (emit s ⟨token.location,
            "non power binary operator must be surrounded by whitespace", true⟩)
          n (fun fx => { fx with ensure_ws_before := true,
                                 ensure_ws_after := true })
      else s
  else s

/-- ANNOTATION branch (`mh_style.py` lines 733-741). -/
def kindAnnotMark (cfg : Cfg) (s : S3State) (token : Token) (n : Nat)
    (ninl : Option (Token × Int)) : S3State :=
  if cfg.active "annotation_whitespace" then
    let s1 := setTokFix s n (fun fx => { fx with ensure_ws_after := true })
    if wsEqB ninl 0 then
      emit s1 ⟨token.location,
        "annotation indication must be succeeded by whitespace", true⟩
    else s1
  else s

/-- NEWLINE branch (`mh_style.py` lines 743-749). -/
def kindNewline (cfg : Cfg) (s : S3State) (token : Token) (n : Nat) : S3State :=
  if n == 0 && cfg.active "no_starting_newline" then
    setTokFix
      (emit s ⟨token.location, "files should not start with a newline", true⟩)
      n (fun fx => { fx with delete := true })
  else s

/-- The kind-dispatch `if`/`elif` chain of `stage_3_analysis`
(`mh_style.py` lines 495-749). -/
def s3_kind (cfg : Cfg) (cc : List Char) (s : S3State) (token : Token)
    (n : Nat) (pinl ninl : Option (Token × Int))
    (prevTok nextTok : Option Token) : S3State :=
  if token.kind == "COMMA" then kindComma cfg s token n pinl ninl
  else if token.kind == "COLON" then kindColon cfg s token n pinl ninl
  else if token.kind == "ASSIGNMENT" then kindAssignment cfg s token n pinl ninl
  else if token.kind == "BRA" || token.kind == "A_BRA" ||
      token.kind == "M_BRA" then kindOpenBracket cfg s token n ninl
  else if token.kind == "KET" || token.kind == "A_KET" ||
      token.kind == "M_KET" then kindCloseBracket cfg s token n pinl
  else if token.kind == "KEYWORD" && KEYWORDS_WITH_WS.contains token.value then
    kindKeywordWs cfg s token n ninl
  else if token.kind == "COMMENT" then kindComment cfg cc s token n pinl
  else if token.kind == "CONTINUATION" then
    kindContinuation cfg s token n pinl prevTok nextTok
  else if token.kind == "OPERATOR" then kindOperator cfg s token n pinl ninl
  else if token.kind == "ANNOTATION" then kindAnnotMark cfg s token n ninl
  else if token.kind == "NEWLINE" then kindNewline cfg s token n
  else s

/-- The dangerous-continuation check (`mh_style.py` lines 752-761).
`token` is the step's snapshot; no earlier phase of the same step
writes `flag_continuations`, so reading the snapshot matches Python's
live object. -/
def s3_dangerous (cfg : Cfg) (s : S3State) (token : Token) (n : Nat)
    (ninl : Option (Token × Int)) : S3State :=
  match ninl with
  | some (nx, _) =>
    if token.fix.flag_continuations && nx.kind == "CONTINUATION" then
      let s1 := setTokFix s n (fun fx => { fx with add_newline := false })
      let fixed := cfg.active "dangerous_continuation"
      let s2 :=
        if fixed then
          setTokFix s1 (n + 1)
            (fun fx => { fx with replace_with_newline := true })
        else s1
      emit s2 ⟨nx.location, "this continuation is dangerously misleading", fixed⟩
    else s
  | none => s

/-- Record the corrected indentation on token `n` and remember the
current indentation level (`mh_style.py` lines 788-789 and the
`current_indent` assignments). -/
def indentApply (s : S3State) (n : Nat) (k ci : Int) : S3State :=
  { setTokFix s n (fun fx => { fx with correct_indent := some k }) with
    current_indent := ci }

/-- The indentation check (`mh_style.py` lines 764-797).  When
`statement_start_token` is still unset on a continued line — impossible
for lexer-produced buffers, where the first token starts a statement —
Python would raise; the model uses the token's own column (offset 0). -/
def s3_indent (cfg : Cfg) (s : S3State) (token : Token) (n : Nat) : S3State :=
  if cfg.active "indentation" && token.kind != "NEWLINE" then
    if token.first_in_line && !token.block_comment then
      let ci : Int :=
        if token.first_in_statement then
          match token.ast_link with
          | some a => a.get_indentation
          | none =>
            match s.enclosing_ast with
            | some e => e.get_indentation + 1
            | none => s.current_indent
        else s.current_indent
      let offset : Int :=
        if token.first_in_statement then 0
        else
          let off := token.location.col_start -
            (match s.statement_start_token with
             | some sst => sst.location.col_start
             | none => token.location.col_start)
          if off ≤ 0 then ((cfg.tab_width / 2 : Nat) : Int) else off
      let correct_spaces := (cfg.tab_width : Int) * ci + offset
      let s2 := indentApply s n correct_spaces ci
      if token.location.col_start ≠ correct_spaces then
        emit s2 ⟨token.location,
          "indentation not correct, should be " ++ toString correct_spaces ++
            " spaces, not " ++ toString token.location.col_start, true⟩
      else s2
    else s
  else s

/-- One iteration of the stage-3 loop (`mh_style.py` lines 365-797):
neighbour computation, statement tracking, justification recognition,
the anonymous skip, and the four checking phases. -/
def stage3_step (cfg : Cfg) (cc : List Char) (s : S3State) (n : Nat) : S3State :=
  match s.tokens.get? n with
  | none => s
  | some token =>
    let prevTok := prevTokenAt s.tokens n
    let nextTok := s.tokens.get? (n + 1)
    let pinl := prevInLine s.tokens n
    let ninl := nextInLine s.tokens n
    let s1 := s3_track s token
    let s2 := s3_justify s1 token
    if token.anonymous then s2
    else
      let s3 := s3_copyright cfg s2 token
      let s4 := s3_kind cfg cc s3 token n pinl ninl prevTok nextTok
      let s5 := s3_dangerous cfg s4 token n ninl
      s3_indent cfg s5 token n

/-- The initial state of `stage_3_analysis` (`mh_style.py` lines
352-363). -/
def s3_init (cfg : Cfg) (toks : List Token) (is_embedded : Bool) : S3State :=
  { tokens := toks
    diags := []
    justifications := []
    in_copyright_notice := cfg.active "copyright_notice" &&
      (!is_embedded || cfg.copyright_in_embedded_code)
    company_copyright_found := false
    generic_copyright_found := false
    copyright_token := none
    copyright_notice := []
    statement_start_token := none
    current_indent := 0
    enclosing_ast := none }

/-- Run the stage-3 loop body over a list of indices. -/
def s3_run (cfg : Cfg) (cc : List Char) (s : S3State) (ns : List Nat) : S3State :=
  ns.foldl (stage3_step cfg cc) s

/-- `stage_3_analysis(mh, cfg, tbuf, is_embedded)`: iterate the loop
body over all token indices.  `cc` is the lexer's `comment_char` set
(`tbuf.comment_char`). -/
def stage_3_analysis (cfg : Cfg) (cc : List Char) (toks : List Token)
    (is_embedded : Bool) : S3State :=
  s3_run cfg cc (s3_init cfg toks is_embedded) (List.range toks.length)

/-! ## Invariants of the stage-3 loop -/

/-- The token fields stage 3 never writes (everything except the
replayer directives of the fix record and `raw_text`). -/
structure TokenSkel where
  kind : String
  value : String
  location : Location
  first_in_line : Bool
  first_in_statement : Bool
  anonymous : Bool
  block_comment : Bool
  ast_link : Option AstInfo
  unary_operator : Bool
  binary_operator : Bool
  statement_terminator : Bool
  flag_continuations : Bool
deriving DecidableEq

/-- Project the stage-3-invariant fields of a token. -/
def skel (t : Token) : TokenSkel :=
  ⟨t.kind, t.value, t.location, t.first_in_line, t.first_in_statement,
   t.anonymous, t.block_comment, t.ast_link, t.fix.unary_operator,
   t.fix.binary_operator, t.fix.statement_terminator,
   t.fix.flag_continuations⟩

/-- How one stage-3 write may change a token: the skeleton is
untouched, boolean directives are only ever set (`add_newline` only
ever cleared). -/
def TokLe (t u : Token) : Prop :=
  skel u = skel t ∧
  (t.fix.ensure_ws_before = true → u.fix.ensure_ws_before = true) ∧
  (t.fix.ensure_ws_after = true → u.fix.ensure_ws_after = true) ∧
  (t.fix.ensure_trim_before = true → u.fix.ensure_trim_before = true) ∧
  (t.fix.ensure_trim_after = true → u.fix.ensure_trim_after = true) ∧
  (t.fix.replace_with_newline = true → u.fix.replace_with_newline = true) ∧
  (t.fix.delete = true → u.fix.delete = true) ∧
  (t.fix.add_newline = false → u.fix.add_newline = false)

/-- `TokLe` lifted to optional tokens. -/
def optTokLe : Option Token → Option Token → Prop
  | some t, some u => TokLe t u
  | none, none => True
  | _, _ => False

/-- Pointwise `TokLe` over a token buffer. -/
def TokensLe (l l' : List Token) : Prop :=
  ∀ i, optTokLe (l.get? i) (l'.get? i)

/-- How the stage-3 loop may evolve the state: diagnostics are only
appended, tokens evolve by `TokLe`. -/
def StateLe (s s' : S3State) : Prop :=
  (∃ d, s'.diags = s.diags ++ d) ∧ TokensLe s.tokens s'.tokens

/-! ## Copyright scan summary (for the header-priority claim) -/

/-- `COPYRIGHT_REGEX` matches somewhere in the comment's text. -/
def conformsB (value : String) : Bool :=
  (copyrightSearch value.data).isSome

/-- `COPYRIGHT_REGEX` matches and its `org` capture, stripped, is one
of the configured copyright entities. -/
def conformsCompanyB (cfg : Cfg) (value : String) : Bool :=
  match copyrightSearch value.data with
  | some org => cfg.copyright_entity.contains (String.mk (pyStripL org))
  | none => false

/-- Fold the copyright recognizer over the leading comment tokens. -/
def copyrightScan (cfg : Cfg) (s : S3State) (ts : List Token) : S3State :=
  ts.foldl (s3_copyright cfg) s

/-! ## The per-file driver (`MH_Style.process_wp`) -/

/-- The inputs of `MH_Style.process_wp` with its collaborators'
results.  Modelled from the spec: the lexer (which yields `tokens` and
`comment_char`, or a lexical error when `lex_ok` is false) and the
parser (which either produces a parse tree, `parse_ok`, or leaves it
`None`) are external; `content` is the work package's file text. -/
structure WorkPackage where
  filename : String
  content : String
  fix : Bool
  cfg : Cfg
  tokens : List Token
  lex_ok : Bool
  parse_ok : Bool
  is_embedded : Bool
  comment_char : List Char

/-- What a `process_wp` call emits: style diagnostics, errors raised
through `mh.error` as (message, fatal), and the token buffer handed to
`tbuf.replay()` for `wp.write_modified` (the replayer itself is an
external collaborator), if any. -/
structure ProcessOut where
  diags : List Diagnostic
  errors : List (String × Bool)
  wrote : Option (List Token)
deriving DecidableEq

/-- `MH_Style.process_wp` (`mh_style.py` lines 809-934): build the rule
library, return immediately on whitespace-only text, run stages 1-3,
and with `--fix` either report parse errors or write the replayed
buffer.  The external naming check and debug dumps are outside the
modelled core. -/
def process_wp (wp : WorkPackage) : ProcessOut :=
  let libFile := build_library wp.cfg get_rules_on_file
  let libLine := build_library wp.cfg get_rules_on_line
  let lines := splitLines wp.content
  if (pyStrip wp.content).length = 0 then
    { diags := [], errors := [], wrote := none }
  else
    let d1 := stage1 libFile wp.cfg wp.filename wp.content lines
    let d2 := stage2 libLine wp.cfg wp.filename lines
    if wp.lex_ok = false then
      { diags := d1 ++ d2, errors := [], wrote := none }
    else
      let s3 := stage_3_analysis wp.cfg wp.comment_char wp.tokens
        wp.is_embedded
      let base := d1 ++ d2 ++ s3.diags
      if wp.fix then
        if wp.parse_ok = false then
          { diags := base,
            errors :=
              [("file is not auto-fixed because it contains parse errors",
                false)],
            wrote := none }
        else
          { diags := base, errors := [], wrote := some s3.tokens }
      else
        { diags := base, errors := [], wrote := none }

/-! ## Concrete inputs used by the claims -/

/-- A configuration whose only active rule is `whitespace_assignment`. -/
def cfgWAssign : Cfg :=
  ⟨fun s => s == "whitespace_assignment", [], false, 4, 1000, 80⟩

/-- A configuration with every optional rule disabled. -/
def cfgAllOff : Cfg := ⟨fun _ => false, [], false, 4, 1000, 80⟩

/-- The token buffer the lexer produces for the line `a=1;`. -/
def tokensA1 : List Token :=
  [{ kind := "IDENTIFIER", value := "a", raw_text := "a",
     location := ⟨"test.m", 1, 0, 0, "a=1;"⟩,
     first_in_line := true, first_in_statement := true },
   { kind := "ASSIGNMENT", value := "=", raw_text := "=",
     location := ⟨"test.m", 1, 1, 1, "a=1;"⟩ },
   { kind := "NUMBER", value := "1", raw_text := "1",
     location := ⟨"test.m", 1, 2, 2, "a=1;"⟩ },
   { kind := "SEMICOLON", value := ";", raw_text := ";",
     location := ⟨"test.m", 1, 3, 3, "a=1;"⟩ },
   { kind := "NEWLINE", location := ⟨"test.m", 1, 4, 4, "a=1;"⟩ }]

/-- A buffer where a token carrying `flag_continuations` is followed in
the same line by an anonymous CONTINUATION token. -/
def tokensDanger : List Token :=
  [{ kind := "KEYWORD", value := "if", raw_text := "if",
     location := ⟨"test.m", 1, 0, 1, ""⟩,
     first_in_line := true, first_in_statement := true,
     fix := { flag_continuations := true } },
   { kind := "CONTINUATION", value := "...", raw_text := "...",
     location := ⟨"test.m", 1, 3, 5, ""⟩, anonymous := true }]

/-- A configuration whose only active rule is `whitespace_comma`. -/
def cfgWComma : Cfg := ⟨fun s => s == "whitespace_comma", [], false, 4, 1000, 80⟩

/-- The token buffer for the line `a,  b` — the comma is followed by
two spaces, violating only the undiagnosed shape. -/
def tokensComma : List Token :=
  [{ kind := "IDENTIFIER", value := "a", raw_text := "a",
     location := ⟨"test.m", 1, 0, 0, "a,  b"⟩,
     first_in_line := true, first_in_statement := true },
   { kind := "COMMA", value := ",", raw_text := ",",
     location := ⟨"test.m", 1, 1, 1, "a,  b"⟩ },
   { kind := "IDENTIFIER", value := "b", raw_text := "b",
     location := ⟨"test.m", 1, 4, 4, "a,  b"⟩ },
   { kind := "NEWLINE", location := ⟨"test.m", 1, 5, 5, "a,  b"⟩ }]

/-- A configuration whose only active rule is `useless_continuation`. -/
def cfgUseless : Cfg :=
  ⟨fun s => s == "useless_continuation", [], false, 4, 1000, 80⟩

/-- A buffer where a continuation is immediately followed by a
newline. -/
def tokensUseless : List Token :=
  [{ kind := "IDENTIFIER", value := "x", raw_text := "x",
     location := ⟨"test.m", 1, 0, 0, "x ..."⟩,
     first_in_line := true, first_in_statement := true },
   { kind := "CONTINUATION", value := "...", raw_text := "...",
     location := ⟨"test.m", 1, 2, 4, "x ..."⟩ },
   { kind := "NEWLINE", location := ⟨"test.m", 1, 5, 5, "x ..."⟩ }]

/-- A configuration with `copyright_notice` active and entity
`Acme Ltd`. -/
def cfgCopyright : Cfg :=
  ⟨fun s => s == "copyright_notice", ["Acme Ltd"], false, 4, 1000, 80⟩

/-- A leading comment carrying a conforming copyright notice. -/
def tokenHeaderComment : Token :=
  { kind := "COMMENT", value := " Copyright 2020 Acme Ltd",
    raw_text := "% Copyright 2020 Acme Ltd",
    location := ⟨"test.m", 1, 0, 25, "% Copyright 2020 Acme Ltd"⟩,
    first_in_line := true, first_in_statement := true }

/-- The first non-comment token ending the header. -/
def tokenHeaderEnd : Token :=
  { kind := "IDENTIFIER", value := "x", raw_text := "x",
    location := ⟨"test.m", 2, 0, 0, "x = 1;"⟩,
    first_in_line := true, first_in_statement := true }

/-- A work package whose file fails to parse, processed with `--fix`. -/
def wpParseFail : WorkPackage :=
  { filename := "test.m", content := "x = ;", fix := true,
    cfg := cfgAllOff, tokens := [], lex_ok := true, parse_ok := false,
    is_embedded := false, comment_char := ['%'] }

/-- A work package whose file is only whitespace, processed with
`--fix`. -/
def wpBlank : WorkPackage :=
  { filename := "test.m", content := "  \n \n", fix := true,
    cfg := cfgAllOff, tokens := [], lex_ok := true, parse_ok := true,
    is_embedded := false, comment_char := ['%'] }

/-! ## Theorems -/

/-- `s3_track` only updates the statement-tracking variables. -/
theorem s3_track_diags (s : S3State) (t : Token) :
    (s3_track s t).diags = s.diags := by
  unfold s3_track
  split <;> rfl

/-- `s3_track` leaves the token buffer unchanged. -/
theorem s3_track_tokens (s : S3State) (t : Token) :
    (s3_track s t).tokens = s.tokens := by
  unfold s3_track
  split <;> rfl

/-- `s3_justify` only updates the justification list. -/
theorem s3_justify_diags (s : S3State) (t : Token) :
    (s3_justify s t).diags = s.diags := by
  unfold s3_justify
  split <;> rfl

/-- `s3_justify` leaves the token buffer unchanged. -/
theorem s3_justify_tokens (s : S3State) (t : Token) :
    (s3_justify s t).tokens = s.tokens := by
  unfold s3_justify
  split <;> rfl

/-- `listModify` indexes like the original list, with `f` applied at
the modified position. -/
theorem listModify_get? (f : Token → Token) (n m : Nat) (l : List Token) :
    (listModify f n l).get? m =
      if m = n then (l.get? m).map f else l.get? m := by
  induction l generalizing n m with
  | nil => simp [listModify]
  | cons t ts ih =>
    cases n with
    | zero =>
      cases m with
      | zero => simp [listModify]
      | succ m => simp [listModify]
    | succ n =>
      cases m with
      | zero => simp [listModify]
      | succ m =>
        simp only [listModify, List.get?_cons_succ, ih n m,
          Nat.succ.injEq, Nat.add_right_cancel_iff]

/-- `listModify` preserves the length. -/
theorem listModify_length (f : Token → Token) (n : Nat) (l : List Token) :
    (listModify f n l).length = l.length := by
  induction l generalizing n with
  | nil => cases n <;> rfl
  | cons t ts ih =>
    cases n with
    | zero => rfl
    | succ n => simpa [listModify] using ih n

/-- `listModify_get?` restated for `getElem?` (the form `simp`
normalizes to). -/
theorem listModify_getElem? (f : Token → Token) (n m : Nat)
    (l : List Token) :
    (listModify f n l)[m]? = if m = n then l[m]?.map f else l[m]? := by
  rw [← List.get?_eq_getElem?, ← List.get?_eq_getElem?, listModify_get?]

/-- `TokLe` is reflexive. -/
theorem TokLe_refl (t : Token) : TokLe t t :=
  ⟨rfl, fun h => h, fun h => h, fun h => h, fun h => h, fun h => h,
   fun h => h, fun h => h⟩

/-- `TokLe` is transitive. -/
theorem TokLe_trans {a b c : Token} (h1 : TokLe a b) (h2 : TokLe b c) :
    TokLe a c := by
  obtain ⟨s1, a1, a2, a3, a4, a5, a6, a7⟩ := h1
  obtain ⟨s2, b1, b2, b3, b4, b5, b6, b7⟩ := h2
  exact ⟨s2.trans s1, fun h => b1 (a1 h), fun h => b2 (a2 h),
    fun h => b3 (a3 h), fun h => b4 (a4 h), fun h => b5 (a5 h),
    fun h => b6 (a6 h), fun h => b7 (a7 h)⟩

/-- `optTokLe` is reflexive. -/
theorem optTokLe_refl (o : Option Token) : optTokLe o o := by
  cases o with
  | none => trivial
  | some t => exact TokLe_refl t

/-- `optTokLe` is transitive. -/
theorem optTokLe_trans {a b c : Option Token} (h1 : optTokLe a b)
    (h2 : optTokLe b c) : optTokLe a c := by
  cases a <;> cases b <;> cases c <;>
    first
      | trivial
      | exact h1.elim
      | exact h2.elim
      | exact TokLe_trans h1 h2

/-- `TokensLe` is reflexive. -/
theorem TokensLe_refl (l : List Token) : TokensLe l l :=
  fun i => optTokLe_refl (l.get? i)

/-- `TokensLe` is transitive. -/
theorem TokensLe_trans {a b c : List Token} (h1 : TokensLe a b)
    (h2 : TokensLe b c) : TokensLe a c :=
  fun i => optTokLe_trans (h1 i) (h2 i)

/-- `StateLe` is reflexive. -/
theorem StateLe_refl (s : S3State) : StateLe s s :=
  ⟨⟨[], by simp⟩, TokensLe_refl _⟩

/-- `StateLe` is transitive. -/
theorem StateLe_trans {a b c : S3State} (h1 : StateLe a b)
    (h2 : StateLe b c) : StateLe a c := by
  obtain ⟨⟨d1, hd1⟩, ht1⟩ := h1
  obtain ⟨⟨d2, hd2⟩, ht2⟩ := h2
  exact ⟨⟨d1 ++ d2, by rw [hd2, hd1, List.append_assoc]⟩,
    TokensLe_trans ht1 ht2⟩

/-- An in-place token update that satisfies `TokLe` pointwise gives
`TokensLe`. -/
theorem TokensLe_modify (l : List Token) (n : Nat) (f : Token → Token)
    (hf : ∀ t, TokLe t (f t)) : TokensLe l (listModify f n l) := by
  intro i
  rw [listModify_get?]
  by_cases h : i = n
  · rw [if_pos h]
    cases hl : l.get? i with
    | none => trivial
    | some t => exact hf t
  · rw [if_neg h]
    exact optTokLe_refl _

/-- Every `setTokFix` write used by stage 3 respects `StateLe`. -/
theorem StateLe_setTokFix (s : S3State) (n : Nat) (f : FixRec → FixRec)
    (hf : ∀ t, TokLe t { t with fix := f t.fix }) :
    StateLe s (setTokFix s n f) :=
  ⟨⟨[], by simp [setTokFix]⟩, TokensLe_modify _ _ _ hf⟩

/-- `setTokRaw` respects `StateLe` (the raw text is no skeleton
field). -/
theorem StateLe_setTokRaw (s : S3State) (n : Nat) (r : String) :
    StateLe s (setTokRaw s n r) :=
  ⟨⟨[], by simp [setTokRaw]⟩,
   TokensLe_modify _ _ _ (fun t => ⟨rfl, fun h => h, fun h => h, fun h => h,
     fun h => h, fun h => h, fun h => h, fun h => h⟩)⟩

/-- `emit` respects `StateLe`. -/
theorem StateLe_emit (s : S3State) (d : Diagnostic) : StateLe s (emit s d) :=
  ⟨⟨[d], rfl⟩, TokensLe_refl _⟩

/-- An `if` of two `StateLe`-respecting branches respects `StateLe`. -/
theorem StateLe_ite (s : S3State) {c : Prop} [Decidable c] {a b : S3State}
    (ha : StateLe s a) (hb : StateLe s b) :
    StateLe s (if c then a else b) := by
  split
  · exact ha
  · exact hb

/-- Compose `StateLe` with a trailing `emit`. -/
theorem StateLe_emit_of {s a : S3State} (h : StateLe s a) (d : Diagnostic) :
    StateLe s (emit a d) :=
  StateLe_trans h (StateLe_emit a d)

/-- Compose `StateLe` with a trailing `setTokFix`. -/
theorem StateLe_setTokFix_of {s a : S3State} (h : StateLe s a) (n : Nat)
    (f : FixRec → FixRec)
    (hf : ∀ t, TokLe t { t with fix := f t.fix }) :
    StateLe s (setTokFix a n f) :=
  StateLe_trans h (StateLe_setTokFix a n f hf)

/-- Compose `StateLe` with a trailing `setTokRaw`. -/
theorem StateLe_setTokRaw_of {s a : S3State} (h : StateLe s a) (n : Nat)
    (r : String) : StateLe s (setTokRaw a n r) :=
  StateLe_trans h (StateLe_setTokRaw a n r)

/-- Statement tracking respects `StateLe`. -/
theorem StateLe_s3_track (s : S3State) (t : Token) :
    StateLe s (s3_track s t) := by
  constructor
  · exact ⟨[], by rw [s3_track_diags]; simp⟩
  · rw [s3_track_tokens]
    exact TokensLe_refl _

/-- Justification recognition respects `StateLe`. -/
theorem StateLe_s3_justify (s : S3State) (t : Token) :
    StateLe s (s3_justify s t) := by
  constructor
  · exact ⟨[], by rw [s3_justify_diags]; simp⟩
  · rw [s3_justify_tokens]
    exact TokensLe_refl _

/-- Copyright recognition respects `StateLe`. -/
theorem StateLe_s3_copyright (cfg : Cfg) (s : S3State) (t : Token) :
    StateLe s (s3_copyright cfg s t) := by
  unfold s3_copyright
  split
  · split
    · split
      · exact ⟨⟨[], by simp⟩, TokensLe_refl _⟩
      · dsimp only
        split
        · exact ⟨⟨[], by simp⟩, TokensLe_refl _⟩
        · exact ⟨⟨[], by simp⟩, TokensLe_refl _⟩
    · exact ⟨⟨copyrightEndDiags cfg s t, rfl⟩, TokensLe_refl _⟩
  · exact StateLe_refl _

/-- The COMMA branch respects `StateLe`. -/
theorem StateLe_kindComma (cfg : Cfg) (s : S3State) (t : Token) (n : Nat)
    (pinl ninl : Option (Token × Int)) :
    StateLe s (kindComma cfg s t n pinl ninl) := by
  unfold kindComma
  dsimp only
  split
  · refine StateLe_ite _ ?_ ?_
    · exact StateLe_emit_of
        (StateLe_setTokFix_of (StateLe_refl s) n _
          (fun u => by simp [TokLe, skel])) _
    · exact StateLe_setTokFix_of (StateLe_refl s) n _
        (fun u => by simp [TokLe, skel])
  · exact StateLe_refl s

/-- The COLON branch respects `StateLe`. -/
theorem StateLe_kindColon (cfg : Cfg) (s : S3State) (t : Token) (n : Nat)
    (pinl ninl : Option (Token × Int)) :
    StateLe s (kindColon cfg s t n pinl ninl) := by
  unfold kindColon
  split
  · split
    · exact StateLe_refl s
    · split
      · refine StateLe_ite _ ?_ (StateLe_refl s)
        exact StateLe_emit_of
          (StateLe_setTokFix_of (StateLe_refl s) n _
            (fun u => by simp [TokLe, skel])) _
      · refine StateLe_ite _ ?_ (StateLe_refl s)
        exact StateLe_emit_of
          (StateLe_setTokFix_of (StateLe_refl s) n _
            (fun u => by simp [TokLe, skel])) _
  · exact StateLe_refl s

/-- The ASSIGNMENT branch respects `StateLe`. -/
theorem StateLe_kindAssignment (cfg : Cfg) (s : S3State) (t : Token) (n : Nat)
    (pinl ninl : Option (Token × Int)) :
    StateLe s (kindAssignment cfg s t n pinl ninl) := by
  unfold kindAssignment
  dsimp only
  split
  · refine StateLe_ite _ ?_ (StateLe_ite _ ?_ ?_)
    · exact StateLe_emit_of
        (StateLe_setTokFix_of (StateLe_refl s) n _
          (fun u => by simp [TokLe, skel])) _
    · exact StateLe_emit_of
        (StateLe_setTokFix_of (StateLe_refl s) n _
          (fun u => by simp [TokLe, skel])) _
    · exact StateLe_setTokFix_of (StateLe_refl s) n _
        (fun u => by simp [TokLe, skel])
  · exact StateLe_refl s

/-- The opening-bracket branch respects `StateLe`. -/
theorem StateLe_kindOpenBracket (cfg : Cfg) (s : S3State) (t : Token) (n : Nat)
    (ninl : Option (Token × Int)) :
    StateLe s (kindOpenBracket cfg s t n ninl) := by
  unfold kindOpenBracket
  split
  · exact StateLe_setTokFix_of (StateLe_emit s _) n _
      (fun u => by simp [TokLe, skel])
  · exact StateLe_refl s

/-- The closing-bracket branch respects `StateLe`. -/
theorem StateLe_kindCloseBracket (cfg : Cfg) (s : S3State) (t : Token) (n : Nat)
    (pinl : Option (Token × Int)) :
    StateLe s (kindCloseBracket cfg s t n pinl) := by
  unfold kindCloseBracket
  split
  · exact StateLe_setTokFix_of (StateLe_emit s _) n _
      (fun u => by simp [TokLe, skel])
  · exact StateLe_refl s

/-- The keyword-whitespace branch respects `StateLe`. -/
theorem StateLe_kindKeywordWs (cfg : Cfg) (s : S3State) (t : Token) (n : Nat)
    (ninl : Option (Token × Int)) :
    StateLe s (kindKeywordWs cfg s t n ninl) := by
  unfold kindKeywordWs
  split
  · exact StateLe_setTokFix_of (StateLe_emit s _) n _
      (fun u => by simp [TokLe, skel])
  · exact StateLe_refl s

/-- The comment-hygiene dispatch respects `StateLe`. -/
theorem StateLe_commentHygiene (cc : List Char) (s : S3State) (t : Token)
    (n : Nat) : StateLe s (commentHygiene cc s t n) := by
  unfold commentHygiene
  dsimp only
  split
  · exact StateLe_refl s
  split
  · exact StateLe_refl s
  split
  · exact StateLe_refl s
  split
  · exact StateLe_refl s
  split
  · exact StateLe_setTokRaw_of (StateLe_emit s _) n _
  split
  · exact StateLe_setTokRaw_of (StateLe_emit s _) n _
  split
  · exact StateLe_setTokRaw_of (StateLe_emit s _) n _
  · exact StateLe_refl s

/-- The COMMENT branch respects `StateLe`. -/
theorem StateLe_kindComment (cfg : Cfg) (cc : List Char) (s : S3State)
    (t : Token) (n : Nat) (pinl : Option (Token × Int)) :
    StateLe s (kindComment cfg cc s t n pinl) := by
  unfold kindComment
  dsimp only
  split
  · refine StateLe_ite _ ?_ (StateLe_commentHygiene cc s t n)
    exact StateLe_setTokFix_of
      (StateLe_emit_of (StateLe_commentHygiene cc s t n) _) n _
      (fun u => by simp [TokLe, skel])
  · exact StateLe_refl s

/-- The `whitespace_continuation` check respects `StateLe`. -/
theorem StateLe_contWsCheck (cfg : Cfg) (s : S3State) (t : Token) (n : Nat)
    (pinl : Option (Token × Int)) :
    StateLe s (contWsCheck cfg s t n pinl) := by
  unfold contWsCheck
  split
  · exact StateLe_setTokFix_of (StateLe_emit s _) n _
      (fun u => by simp [TokLe, skel])
  · exact StateLe_refl s

/-- The `operator_after_continuation` check respects `StateLe`. -/
theorem StateLe_contOpCheck (cfg : Cfg) (s : S3State) (nT : Option Token) :
    StateLe s (contOpCheck cfg s nT) := by
  unfold contOpCheck
  cases nT with
  | none => exact StateLe_refl s
  | some nx => exact StateLe_ite _ (StateLe_emit s _) (StateLe_refl s)

/-- The `useless_continuation` check respects `StateLe`. -/
theorem StateLe_contUselessCheck (cfg : Cfg) (s : S3State) (t : Token)
    (n : Nat) (pT nT : Option Token) :
    StateLe s (contUselessCheck cfg s t n pT nT) := by
  unfold contUselessCheck
  split
  · split
    · exact StateLe_setTokFix_of (StateLe_emit s _) n _
        (fun u => by simp [TokLe, skel])
    · split
      · exact StateLe_setTokFix_of (StateLe_emit s _) n _
          (fun u => by simp [TokLe, skel])
      · exact StateLe_refl s
  · exact StateLe_refl s

/-- The CONTINUATION branch respects `StateLe`. -/
theorem StateLe_kindContinuation (cfg : Cfg) (s : S3State) (t : Token)
    (n : Nat) (pinl : Option (Token × Int)) (pT nT : Option Token) :
    StateLe s (kindContinuation cfg s t n pinl pT nT) := by
  unfold kindContinuation
  exact StateLe_trans (StateLe_contWsCheck cfg s t n pinl)
    (StateLe_trans (StateLe_contOpCheck cfg _ nT)
      (StateLe_contUselessCheck cfg _ t n pT nT))

/-- The OPERATOR branch respects `StateLe`. -/
theorem StateLe_kindOperator (cfg : Cfg) (s : S3State) (t : Token) (n : Nat)
    (pinl ninl : Option (Token × Int)) :
    StateLe s (kindOperator cfg s t n pinl ninl) := by
  unfold kindOperator
  split
  · exact StateLe_refl s
  split
  · split
    · exact StateLe_setTokFix_of (StateLe_emit s _) n _
        (fun u => by simp [TokLe, skel])
    split
    · exact StateLe_setTokFix_of (StateLe_emit s _) n _
        (fun u => by simp [TokLe, skel])
    · exact StateLe_refl s
  split
  · split
    · refine StateLe_ite _ ?_ (StateLe_refl s)
      exact StateLe_setTokFix_of (StateLe_emit s _) n _
        (fun u => by simp [TokLe, skel])
    · refine StateLe_ite _ ?_ (StateLe_refl s)
      exact StateLe_setTokFix_of (StateLe_emit s _) n _
        (fun u => by simp [TokLe, skel])
  · exact StateLe_refl s

/-- The ANNOTATION branch respects `StateLe`. -/
theorem StateLe_kindAnnotMark (cfg : Cfg) (s : S3State) (t : Token) (n : Nat)
    (ninl : Option (Token × Int)) :
    StateLe s (kindAnnotMark cfg s t n ninl) := by
  unfold kindAnnotMark
  dsimp only
  split
  · refine StateLe_ite _ ?_ ?_
    · exact StateLe_emit_of
        (StateLe_setTokFix_of (StateLe_refl s) n _
          (fun u => by simp [TokLe, skel])) _
    · exact StateLe_setTokFix_of (StateLe_refl s) n _
        (fun u => by simp [TokLe, skel])
  · exact StateLe_refl s

/-- The NEWLINE branch respects `StateLe`. -/
theorem StateLe_kindNewline (cfg : Cfg) (s : S3State) (t : Token) (n : Nat) :
    StateLe s (kindNewline cfg s t n) := by
  unfold kindNewline
  split
  · exact StateLe_setTokFix_of (StateLe_emit s _) n _
      (fun u => by simp [TokLe, skel])
  · exact StateLe_refl s

/-- The whole kind dispatch respects `StateLe`. -/
theorem StateLe_s3_kind (cfg : Cfg) (cc : List Char) (s : S3State)
    (t : Token) (n : Nat) (pinl ninl : Option (Token × Int))
    (pT nT : Option Token) :
    StateLe s (s3_kind cfg cc s t n pinl ninl pT nT) := by
  unfold s3_kind
  refine StateLe_ite _ (StateLe_kindComma cfg s t n pinl ninl) ?_
  refine StateLe_ite _ (StateLe_kindColon cfg s t n pinl ninl) ?_
  refine StateLe_ite _ (StateLe_kindAssignment cfg s t n pinl ninl) ?_
  refine StateLe_ite _ (StateLe_kindOpenBracket cfg s t n ninl) ?_
  refine StateLe_ite _ (StateLe_kindCloseBracket cfg s t n pinl) ?_
  refine StateLe_ite _ (StateLe_kindKeywordWs cfg s t n ninl) ?_
  refine StateLe_ite _ (StateLe_kindComment cfg cc s t n pinl) ?_
  refine StateLe_ite _ (StateLe_kindContinuation cfg s t n pinl pT nT) ?_
  refine StateLe_ite _ (StateLe_kindOperator cfg s t n pinl ninl) ?_
  refine StateLe_ite _ (StateLe_kindAnnotMark cfg s t n ninl) ?_
  exact StateLe_ite _ (StateLe_kindNewline cfg s t n) (StateLe_refl s)

/-- The dangerous-continuation check respects `StateLe`. -/
theorem StateLe_s3_dangerous (cfg : Cfg) (s : S3State) (t : Token) (n : Nat)
    (ninl : Option (Token × Int)) :
    StateLe s (s3_dangerous cfg s t n ninl) := by
  unfold s3_dangerous
  cases ninl with
  | none => exact StateLe_refl s
  | some p =>
    obtain ⟨nx, w⟩ := p
    dsimp only
    split
    · refine StateLe_emit_of (StateLe_ite _ ?_ ?_) _
      · exact StateLe_setTokFix_of
          (StateLe_setTokFix_of (StateLe_refl s) n _
            (fun u => by simp [TokLe, skel])) (n + 1) _
          (fun u => by simp [TokLe, skel])
      · exact StateLe_setTokFix_of (StateLe_refl s) n _
          (fun u => by simp [TokLe, skel])
    · exact StateLe_refl s

/-- `indentApply` respects `StateLe`. -/
theorem StateLe_indentApply (s : S3State) (n : Nat) (k ci : Int) :
    StateLe s (indentApply s n k ci) := by
  refine StateLe_trans
    (StateLe_setTokFix s n (fun fx => { fx with correct_indent := some k })
      (fun u => ⟨rfl, fun h => h, fun h => h, fun h => h, fun h => h,
        fun h => h, fun h => h, fun h => h⟩)) ?_
  exact ⟨⟨[], by simp [indentApply]⟩, TokensLe_refl _⟩

/-- The indentation check respects `StateLe`. -/
theorem StateLe_s3_indent (cfg : Cfg) (s : S3State) (t : Token) (n : Nat) :
    StateLe s (s3_indent cfg s t n) := by
  unfold s3_indent
  split
  · split
    · dsimp only
      refine StateLe_ite _ ?_ (StateLe_indentApply s n _ _)
      exact StateLe_emit_of (StateLe_indentApply s n _ _) _
    · exact StateLe_refl s
  · exact StateLe_refl s

/-- One loop iteration respects `StateLe`. -/
theorem StateLe_stage3_step (cfg : Cfg) (cc : List Char) (s : S3State)
    (n : Nat) : StateLe s (stage3_step cfg cc s n) := by
  unfold stage3_step
  cases h : s.tokens.get? n with
  | none => exact StateLe_refl s
  | some t =>
    dsimp only
    split
    · exact StateLe_trans (StateLe_s3_track s t) (StateLe_s3_justify _ t)
    · refine StateLe_trans (StateLe_s3_track s t) ?_
      refine StateLe_trans (StateLe_s3_justify _ t) ?_
      refine StateLe_trans (StateLe_s3_copyright cfg _ t) ?_
      refine StateLe_trans
        (StateLe_s3_kind cfg cc _ t n (prevInLine s.tokens n)
          (nextInLine s.tokens n) (prevTokenAt s.tokens n)
          (s.tokens.get? (n + 1))) ?_
      refine StateLe_trans
        (StateLe_s3_dangerous cfg _ t n (nextInLine s.tokens n)) ?_
      exact StateLe_s3_indent cfg _ t n

/-- The whole loop respects `StateLe`. -/
theorem StateLe_s3_run (cfg : Cfg) (cc : List Char) :
    ∀ (ns : List Nat) (s : S3State), StateLe s (s3_run cfg cc s ns) := by
  intro ns
  induction ns with
  | nil => intro s; exact StateLe_refl s
  | cons a l ih =>
    intro s
    exact StateLe_trans (StateLe_stage3_step cfg cc s a) (ih _)

/-- Split `range L` at an interior index `n`. -/
theorem range_split_at (n L : Nat) (h : n < L) :
    List.range L = List.range n ++ n :: List.range' (n + 1) (L - n - 1) := by
  rw [List.range_eq_range', List.range_eq_range']
  have h2 : L = 1 + (L - n - 1) + n := by omega
  rw [h2, ← List.range'_append 0 n (1 + (L - n - 1)) 1]
  have h3 : 1 + (L - n - 1) = (L - n - 1) + 1 := by omega
  rw [h3, List.range'_succ]
  simp

/-- `s3_run` over an appended index list. -/
theorem s3_run_append (cfg : Cfg) (cc : List Char) (s : S3State)
    (l1 l2 : List Nat) :
    s3_run cfg cc s (l1 ++ l2) = s3_run cfg cc (s3_run cfg cc s l1) l2 := by
  simp [s3_run, List.foldl_append]

/-- Split the stage-3 loop before and after iteration `n`. -/
theorem s3_run_range_split (cfg : Cfg) (cc : List Char) (s : S3State)
    (n L : Nat) (h : n < L) :
    s3_run cfg cc s (List.range L) =
      s3_run cfg cc
        (stage3_step cfg cc (s3_run cfg cc s (List.range n)) n)
        (List.range' (n + 1) (L - n - 1)) := by
  rw [range_split_at n L h, s3_run_append]
  rfl

/-- Transfer a present token across `TokensLe`. -/
theorem TokensLe_get {l l' : List Token} (h : TokensLe l l') {n : Nat}
    {t : Token} (hn : l.get? n = some t) :
    ∃ u, l'.get? n = some u ∧ TokLe t u := by
  have hi := h n
  rw [hn] at hi
  cases hu : l'.get? n with
  | none =>
    rw [hu] at hi
    exact hi.elim
  | some u =>
    rw [hu] at hi
    exact ⟨u, rfl, hi⟩

/-- Transfer an absent token across `TokensLe`. -/
theorem TokensLe_get_none {l l' : List Token} (h : TokensLe l l') {n : Nat}
    (hn : l.get? n = none) : l'.get? n = none := by
  have hi := h n
  rw [hn] at hi
  cases hu : l'.get? n with
  | none => rfl
  | some u =>
    rw [hu] at hi
    exact hi.elim

/-- Unpack a skeleton equality into the individual field equalities. -/
theorem skel_eq_fields {t u : Token} (h : skel u = skel t) :
    u.kind = t.kind ∧ u.value = t.value ∧ u.location = t.location ∧
    u.first_in_line = t.first_in_line ∧
    u.first_in_statement = t.first_in_statement ∧
    u.anonymous = t.anonymous ∧ u.block_comment = t.block_comment ∧
    u.ast_link = t.ast_link ∧
    u.fix.unary_operator = t.fix.unary_operator ∧
    u.fix.binary_operator = t.fix.binary_operator ∧
    u.fix.statement_terminator = t.fix.statement_terminator ∧
    u.fix.flag_continuations = t.fix.flag_continuations := by
  simpa [skel, TokenSkel.mk.injEq] using h

/-- Copyright recognition never touches the token buffer. -/
theorem s3_copyright_tokens (cfg : Cfg) (s : S3State) (t : Token) :
    (s3_copyright cfg s t).tokens = s.tokens := by
  unfold s3_copyright
  split
  · split
    · split
      · rfl
      · dsimp only
        split <;> rfl
    · rfl
  · rfl

/-- The token buffer going into the kind dispatch is the step's input
buffer. -/
theorem pre_kind_tokens (cfg : Cfg) (s : S3State) (t : Token) :
    (s3_copyright cfg (s3_justify (s3_track s t) t) t).tokens = s.tokens := by
  rw [s3_copyright_tokens, s3_justify_tokens, s3_track_tokens]

/-- The shape of one loop iteration on a non-anonymous token. -/
theorem stage3_step_eq (cfg : Cfg) (cc : List Char) (s : S3State) (n : Nat)
    (t : Token) (ht : s.tokens.get? n = some t) (ha : t.anonymous = false) :
    stage3_step cfg cc s n =
      s3_indent cfg
        (s3_dangerous cfg
          (s3_kind cfg cc (s3_copyright cfg (s3_justify (s3_track s t) t) t)
            t n (prevInLine s.tokens n) (nextInLine s.tokens n)
            (prevTokenAt s.tokens n) (s.tokens.get? (n + 1)))
          t n (nextInLine s.tokens n))
        t n := by
  unfold stage3_step
  simp only [ht]
  rw [if_neg (by simp [ha])]

/-- `nextInLine` under explicit neighbour facts. -/
theorem nextInLine_eq {toks : List Token} {n : Nat} {t nx : Token}
    (ht : toks.get? n = some t) (hnx : toks.get? (n + 1) = some nx)
    (hl : nx.location.line = t.location.line) (hk : nx.kind ≠ "NEWLINE") :
    nextInLine toks n =
      some (nx, nx.location.col_start - t.location.col_end - 1) := by
  unfold nextInLine
  rw [ht, hnx]
  simp [hl, hk]

/-- The dangerous-continuation check always emits its diagnostic, with
`fixed` reflecting whether the rule is active. -/
theorem s3_dangerous_diags (cfg : Cfg) (s : S3State) (t : Token) (n : Nat)
    (nx : Token) (w : Int) (hf : t.fix.flag_continuations = true)
    (hk : nx.kind = "CONTINUATION") :
    (s3_dangerous cfg s t n (some (nx, w))).diags =
      s.diags ++ [⟨nx.location, "this continuation is dangerously misleading",
        cfg.active "dangerous_continuation"⟩] := by
  unfold s3_dangerous
  dsimp only
  rw [if_pos (by simp [hf, hk])]
  split <;> rfl

/-- The dangerous-continuation check sets `replace_with_newline` on the
continuation exactly when the rule is active, otherwise leaves it. -/
theorem s3_dangerous_replace (cfg : Cfg) (s : S3State) (t : Token) (n : Nat)
    (nx : Token) (w : Int) (hf : t.fix.flag_continuations = true)
    (hk : nx.kind = "CONTINUATION") :
    ((s3_dangerous cfg s t n (some (nx, w))).tokens.get? (n + 1)).map
        (fun u => u.fix.replace_with_newline) =
      (s.tokens.get? (n + 1)).map
        (fun u => cfg.active "dangerous_continuation" ||
          u.fix.replace_with_newline) := by
  unfold s3_dangerous
  dsimp only
  rw [if_pos (by simp [hf, hk])]
  have hne : ¬(n + 1 = n) := by omega
  split
  · rename_i hfix
    cases hg : s.tokens[n + 1]? with
    | none =>
      simp [emit, setTokFix, listModify_getElem?, listModify_length, hne, hg]
    | some u => simp [emit, setTokFix, listModify_getElem?, hne, hg, hfix]
  · rename_i hfix
    have hx : cfg.active "dangerous_continuation" = false := by
      revert hfix
      cases cfg.active "dangerous_continuation" <;> simp
    cases hg : s.tokens[n + 1]? with
    | none =>
      simp [emit, setTokFix, listModify_getElem?, listModify_length, hne, hg]
    | some u => simp [emit, setTokFix, listModify_getElem?, hne, hg, hx]

/-- The dangerous-continuation check clears `add_newline` on the
flagged token. -/
theorem s3_dangerous_addnl (cfg : Cfg) (s : S3State) (t : Token) (n : Nat)
    (nx : Token) (w : Int) (hf : t.fix.flag_continuations = true)
    (hk : nx.kind = "CONTINUATION") :
    ((s3_dangerous cfg s t n (some (nx, w))).tokens.get? n).map
        (fun u => u.fix.add_newline) =
      (s.tokens.get? n).map (fun _ => false) := by
  unfold s3_dangerous
  dsimp only
  rw [if_pos (by simp [hf, hk])]
  have hne : ¬(n = n + 1) := by omega
  split
  · cases hg : s.tokens[n]? with
    | none =>
      simp [emit, setTokFix, listModify_getElem?, listModify_length, hne, hg]
    | some u => simp [emit, setTokFix, listModify_getElem?, hne, hg]
  · cases hg : s.tokens[n]? with
    | none =>
      simp [emit, setTokFix, listModify_getElem?, listModify_length, hne, hg]
    | some u => simp [emit, setTokFix, listModify_getElem?, hne, hg]

/-- Diagnostics only grow along `StateLe`. -/
theorem StateLe_mem_diags {a b : S3State} (h : StateLe a b) {d : Diagnostic}
    (hd : d ∈ a.diags) : d ∈ b.diags := by
  obtain ⟨l, hl⟩ := h.1
  rw [hl]
  exact List.mem_append_left _ hd

/-- A set `replace_with_newline` stays set along `TokensLe`. -/
theorem TokensLe_replace_true {l l' : List Token} (h : TokensLe l l')
    {n : Nat} {u : Token} (hu : l.get? n = some u)
    (hf : u.fix.replace_with_newline = true) :
    (l'.get? n).map (fun v => v.fix.replace_with_newline) = some true := by
  obtain ⟨v, hv, hle⟩ := TokensLe_get h hu
  rw [hv]
  simp [hle.2.2.2.2.2.1 hf]

/-- A set `delete` stays set along `TokensLe`. -/
theorem TokensLe_delete_true {l l' : List Token} (h : TokensLe l l')
    {n : Nat} {u : Token} (hu : l.get? n = some u)
    (hf : u.fix.delete = true) :
    (l'.get? n).map (fun v => v.fix.delete) = some true := by
  obtain ⟨v, hv, hle⟩ := TokensLe_get h hu
  rw [hv]
  simp [hle.2.2.2.2.2.2.1 hf]

/-- A cleared `add_newline` stays cleared along `TokensLe`. -/
theorem TokensLe_addnl_false {l l' : List Token} (h : TokensLe l l')
    {n : Nat} {u : Token} (hu : l.get? n = some u)
    (hf : u.fix.add_newline = false) :
    (l'.get? n).map (fun v => v.fix.add_newline) = some false := by
  obtain ⟨v, hv, hle⟩ := TokensLe_get h hu
  rw [hv]
  simp [hle.2.2.2.2.2.2.2 hf]

/-- Set comma directives stay set along `TokensLe`. -/
theorem TokensLe_comma_flags {l l' : List Token} (h : TokensLe l l')
    {n : Nat} {u : Token} (hu : l.get? n = some u)
    (h1 : u.fix.ensure_trim_before = true) (h2 : u.fix.ensure_ws_after = true) :
    (l'.get? n).map
        (fun v => (v.fix.ensure_trim_before, v.fix.ensure_ws_after)) =
      some (true, true) := by
  obtain ⟨v, hv, hle⟩ := TokensLe_get h hu
  rw [hv]
  simp [hle.2.2.2.1 h1, hle.2.2.1 h2]

/-- Set assignment directives stay set along `TokensLe`. -/
theorem TokensLe_assign_flags {l l' : List Token} (h : TokensLe l l')
    {n : Nat} {u : Token} (hu : l.get? n = some u)
    (h1 : u.fix.ensure_ws_before = true) (h2 : u.fix.ensure_ws_after = true) :
    (l'.get? n).map
        (fun v => (v.fix.ensure_ws_before, v.fix.ensure_ws_after)) =
      some (true, true) := by
  obtain ⟨v, hv, hle⟩ := TokensLe_get h hu
  rw [hv]
  simp [hle.2.1 h1, hle.2.2.1 h2]

/-- An `Option.map` equation on a `some` source names the element. -/
theorem map_eq_some_elim {β : Type} {o : Option Token} {sel : Token → β}
    {b : β} (h : o.map sel = some b) : ∃ u, o = some u ∧ sel u = b := by
  cases o with
  | none => simp at h
  | some u => exact ⟨u, rfl, by simpa using h⟩

/-- The kind dispatch on a CONTINUATION token. -/
theorem s3_kind_continuation_eq (cfg : Cfg) (cc : List Char) (s : S3State)
    (t : Token) (n : Nat) (pinl ninl : Option (Token × Int))
    (pT nT : Option Token) (hk : t.kind = "CONTINUATION") :
    s3_kind cfg cc s t n pinl ninl pT nT =
      kindContinuation cfg s t n pinl pT nT := by
  unfold s3_kind
  rw [hk]
  simp

/-- The kind dispatch on a COMMA token. -/
theorem s3_kind_comma_eq (cfg : Cfg) (cc : List Char) (s : S3State)
    (t : Token) (n : Nat) (pinl ninl : Option (Token × Int))
    (pT nT : Option Token) (hk : t.kind = "COMMA") :
    s3_kind cfg cc s t n pinl ninl pT nT =
      kindComma cfg s t n pinl ninl := by
  unfold s3_kind
  rw [hk]
  simp

/-- The kind dispatch on an ASSIGNMENT token. -/
theorem s3_kind_assignment_eq (cfg : Cfg) (cc : List Char) (s : S3State)
    (t : Token) (n : Nat) (pinl ninl : Option (Token × Int))
    (pT nT : Option Token) (hk : t.kind = "ASSIGNMENT") :
    s3_kind cfg cc s t n pinl ninl pT nT =
      kindAssignment cfg s t n pinl ninl := by
  unfold s3_kind
  rw [hk]
  simp

/-- `useless_continuation`, first arm: a continuation before a newline
or comment is diagnosed and replaced with a newline; `delete` is left
alone. -/
theorem contUseless_next (cfg : Cfg) (s : S3State) (t : Token) (n : Nat)
    (pT nT : Option Token)
    (hact : cfg.active "useless_continuation" = true)
    (hcond : (match nT with
              | some nx => nx.kind == "NEWLINE" || nx.kind == "COMMENT"
              | none => false) = true) :
    (contUselessCheck cfg s t n pT nT).diags =
      s.diags ++ [⟨t.location, "useless line continuation", true⟩] ∧
    ((contUselessCheck cfg s t n pT nT).tokens.get? n).map
        (fun v => v.fix.replace_with_newline) =
      (s.tokens.get? n).map (fun _ => true) ∧
    ((contUselessCheck cfg s t n pT nT).tokens.get? n).map
        (fun v => v.fix.delete) =
      (s.tokens.get? n).map (fun v => v.fix.delete) := by
  unfold contUselessCheck
  rw [if_pos hact, if_pos hcond]
  refine ⟨rfl, ?_, ?_⟩
  · cases hg : s.tokens[n]? with
    | none =>
      simp [emit, setTokFix, listModify_getElem?, listModify_length, hg]
    | some u => simp [emit, setTokFix, listModify_getElem?, hg]
  · cases hg : s.tokens[n]? with
    | none =>
      simp [emit, setTokFix, listModify_getElem?, listModify_length, hg]
    | some u => simp [emit, setTokFix, listModify_getElem?, hg]

/-- `useless_continuation`, second arm: a continuation after a
statement terminator is diagnosed and deleted. -/
theorem contUseless_term (cfg : Cfg) (s : S3State) (t : Token) (n : Nat)
    (pT nT : Option Token)
    (hact : cfg.active "useless_continuation" = true)
    (hcond : (match nT with
              | some nx => nx.kind == "NEWLINE" || nx.kind == "COMMENT"
              | none => false) = false)
    (hprev : (match pT with
              | some p => p.fix.statement_terminator
              | none => false) = true) :
    (contUselessCheck cfg s t n pT nT).diags =
      s.diags ++ [⟨t.location, "useless line continuation", true⟩] ∧
    ((contUselessCheck cfg s t n pT nT).tokens.get? n).map
        (fun v => v.fix.delete) =
      (s.tokens.get? n).map (fun _ => true) := by
  unfold contUselessCheck
  rw [if_pos hact, if_neg (by simp [hcond]), if_pos hprev]
  refine ⟨rfl, ?_⟩
  cases hg : s.tokens[n]? with
  | none => simp [emit, setTokFix, listModify_getElem?, listModify_length, hg]
  | some u => simp [emit, setTokFix, listModify_getElem?, hg]

/-- One step on a non-anonymous CONTINUATION whose raw next token is a
newline or comment: the useless-continuation diagnostic is emitted and
the continuation's `replace_with_newline` is set. -/
theorem step_useless_next (cfg : Cfg) (cc : List Char) (s : S3State)
    (n : Nat) (t nx : Token)
    (ht : s.tokens.get? n = some t) (ha : t.anonymous = false)
    (hk : t.kind = "CONTINUATION")
    (hact : cfg.active "useless_continuation" = true)
    (hnx : s.tokens.get? (n + 1) = some nx)
    (hnk : nx.kind = "NEWLINE" ∨ nx.kind = "COMMENT") :
    (⟨t.location, "useless line continuation", true⟩ : Diagnostic) ∈
      (stage3_step cfg cc s n).diags ∧
    ((stage3_step cfg cc s n).tokens.get? n).map
        (fun v => v.fix.replace_with_newline) = some true := by
  rw [stage3_step_eq cfg cc s n t ht ha,
    s3_kind_continuation_eq cfg cc _ t n _ _ _ _ hk]
  unfold kindContinuation
  have h0 : (s3_copyright cfg (s3_justify (s3_track s t) t) t).tokens.get? n =
      some t := by
    rw [pre_kind_tokens]
    exact ht
  have hle01 : StateLe (s3_copyright cfg (s3_justify (s3_track s t) t) t)
      (contOpCheck cfg
        (contWsCheck cfg (s3_copyright cfg (s3_justify (s3_track s t) t) t)
          t n (prevInLine s.tokens n))
        (s.tokens.get? (n + 1))) :=
    StateLe_trans (StateLe_contWsCheck cfg _ t n _)
      (StateLe_contOpCheck cfg _ _)
  obtain ⟨u1, hu1, _⟩ := TokensLe_get hle01.2 h0
  have hcond : (match s.tokens.get? (n + 1) with
                | some nx' => nx'.kind == "NEWLINE" || nx'.kind == "COMMENT"
                | none => false) = true := by
    rw [hnx]
    rcases hnk with h | h <;> simp [h]
  obtain ⟨hd, hr, _⟩ := contUseless_next cfg _ t n (prevTokenAt s.tokens n)
    (s.tokens.get? (n + 1)) hact hcond
  have hlast : StateLe
      (contUselessCheck cfg
        (contOpCheck cfg
          (contWsCheck cfg (s3_copyright cfg (s3_justify (s3_track s t) t) t)
            t n (prevInLine s.tokens n))
          (s.tokens.get? (n + 1)))
        t n (prevTokenAt s.tokens n) (s.tokens.get? (n + 1)))
      _ :=
    StateLe_trans (StateLe_s3_dangerous cfg _ t n (nextInLine s.tokens n))
      (StateLe_s3_indent cfg _ t n)
  constructor
  · refine StateLe_mem_diags hlast ?_
    rw [hd]
    simp
  · have hsome : ((contUselessCheck cfg
        (contOpCheck cfg
          (contWsCheck cfg (s3_copyright cfg (s3_justify (s3_track s t) t) t)
            t n (prevInLine s.tokens n))
          (s.tokens.get? (n + 1)))
        t n (prevTokenAt s.tokens n) (s.tokens.get? (n + 1))).tokens.get?
          n).map (fun v => v.fix.replace_with_newline) = some true := by
      rw [hr, hu1]
      rfl
    obtain ⟨u2, hu2, hu2f⟩ := map_eq_some_elim hsome
    exact TokensLe_replace_true hlast.2 hu2 hu2f

/-- One step on a non-anonymous CONTINUATION after a statement
terminator (and not before a newline or comment): the diagnostic is
emitted and `delete` is set. -/
theorem step_useless_term (cfg : Cfg) (cc : List Char) (s : S3State)
    (n : Nat) (t : Token)
    (ht : s.tokens.get? n = some t) (ha : t.anonymous = false)
    (hk : t.kind = "CONTINUATION")
    (hact : cfg.active "useless_continuation" = true)
    (hcond : (match s.tokens.get? (n + 1) with
              | some nx' => nx'.kind == "NEWLINE" || nx'.kind == "COMMENT"
              | none => false) = false)
    (hprev : (match prevTokenAt s.tokens n with
              | some p => p.fix.statement_terminator
              | none => false) = true) :
    (⟨t.location, "useless line continuation", true⟩ : Diagnostic) ∈
      (stage3_step cfg cc s n).diags ∧
    ((stage3_step cfg cc s n).tokens.get? n).map
        (fun v => v.fix.delete) = some true := by
  rw [stage3_step_eq cfg cc s n t ht ha,
    s3_kind_continuation_eq cfg cc _ t n _ _ _ _ hk]
  unfold kindContinuation
  have h0 : (s3_copyright cfg (s3_justify (s3_track s t) t) t).tokens.get? n =
      some t := by
    rw [pre_kind_tokens]
    exact ht
  have hle01 : StateLe (s3_copyright cfg (s3_justify (s3_track s t) t) t)
      (contOpCheck cfg
        (contWsCheck cfg (s3_copyright cfg (s3_justify (s3_track s t) t) t)
          t n (prevInLine s.tokens n))
        (s.tokens.get? (n + 1))) :=
    StateLe_trans (StateLe_contWsCheck cfg _ t n _)
      (StateLe_contOpCheck cfg _ _)
  obtain ⟨u1, hu1, _⟩ := TokensLe_get hle01.2 h0
  obtain ⟨hd, hr⟩ := contUseless_term cfg _ t n (prevTokenAt s.tokens n)
    (s.tokens.get? (n + 1)) hact hcond hprev
  have hlast : StateLe
      (contUselessCheck cfg
        (contOpCheck cfg
          (contWsCheck cfg (s3_copyright cfg (s3_justify (s3_track s t) t) t)
            t n (prevInLine s.tokens n))
          (s.tokens.get? (n + 1)))
        t n (prevTokenAt s.tokens n) (s.tokens.get? (n + 1)))
      _ :=
    StateLe_trans (StateLe_s3_dangerous cfg _ t n (nextInLine s.tokens n))
      (StateLe_s3_indent cfg _ t n)
  constructor
  · refine StateLe_mem_diags hlast ?_
    rw [hd]
    simp
  · have hsome : ((contUselessCheck cfg
        (contOpCheck cfg
          (contWsCheck cfg (s3_copyright cfg (s3_justify (s3_track s t) t) t)
            t n (prevInLine s.tokens n))
          (s.tokens.get? (n + 1)))
        t n (prevTokenAt s.tokens n) (s.tokens.get? (n + 1))).tokens.get?
          n).map (fun v => v.fix.delete) = some true := by
      rw [hr, hu1]
      rfl
    obtain ⟨u2, hu2, hu2f⟩ := map_eq_some_elim hsome
    exact TokensLe_delete_true hlast.2 hu2 hu2f

/-- One step on a non-anonymous COMMA with `whitespace_comma` active:
`ensure_trim_before` and `ensure_ws_after` are set. -/
theorem step_comma_sets (cfg : Cfg) (cc : List Char) (s : S3State)
    (n : Nat) (t : Token)
    (ht : s.tokens.get? n = some t) (ha : t.anonymous = false)
    (hk : t.kind = "COMMA")
    (hact : cfg.active "whitespace_comma" = true) :
    ((stage3_step cfg cc s n).tokens.get? n).map
        (fun v => (v.fix.ensure_trim_before, v.fix.ensure_ws_after)) =
      some (true, true) := by
  rw [stage3_step_eq cfg cc s n t ht ha,
    s3_kind_comma_eq cfg cc _ t n _ _ _ _ hk]
  have h0 : (s3_copyright cfg (s3_justify (s3_track s t) t) t).tokens[n]? =
      some t := by
    rw [← List.get?_eq_getElem?, pre_kind_tokens]
    exact ht
  have hkc : ((kindComma cfg (s3_copyright cfg (s3_justify (s3_track s t) t) t)
      t n (prevInLine s.tokens n) (nextInLine s.tokens n)).tokens.get? n).map
        (fun v => (v.fix.ensure_trim_before, v.fix.ensure_ws_after)) =
      some (true, true) := by
    unfold kindComma
    rw [if_pos hact]
    dsimp only
    split
    · simp [emit, setTokFix, listModify_getElem?, h0]
    · simp [emit, setTokFix, listModify_getElem?, h0]
  obtain ⟨u2, hu2, hu2f⟩ := map_eq_some_elim hkc
  have hpair := Prod.mk.injEq _ _ _ _ ▸ hu2f
  have hlast : StateLe
      (kindComma cfg (s3_copyright cfg (s3_justify (s3_track s t) t) t)
        t n (prevInLine s.tokens n) (nextInLine s.tokens n)) _ :=
    StateLe_trans (StateLe_s3_dangerous cfg _ t n (nextInLine s.tokens n))
      (StateLe_s3_indent cfg _ t n)
  exact TokensLe_comma_flags hlast.2 hu2
    (by simpa using congrArg Prod.fst hu2f)
    (by simpa using congrArg Prod.snd hu2f)

/-- One step on a non-anonymous ASSIGNMENT with `whitespace_assignment`
active: `ensure_ws_before` and `ensure_ws_after` are set. -/
theorem step_assignment_sets (cfg : Cfg) (cc : List Char) (s : S3State)
    (n : Nat) (t : Token)
    (ht : s.tokens.get? n = some t) (ha : t.anonymous = false)
    (hk : t.kind = "ASSIGNMENT")
    (hact : cfg.active "whitespace_assignment" = true) :
    ((stage3_step cfg cc s n).tokens.get? n).map
        (fun v => (v.fix.ensure_ws_before, v.fix.ensure_ws_after)) =
      some (true, true) := by
  rw [stage3_step_eq cfg cc s n t ht ha,
    s3_kind_assignment_eq cfg cc _ t n _ _ _ _ hk]
  have h0 : (s3_copyright cfg (s3_justify (s3_track s t) t) t).tokens[n]? =
      some t := by
    rw [← List.get?_eq_getElem?, pre_kind_tokens]
    exact ht
  have hkc : ((kindAssignment cfg
      (s3_copyright cfg (s3_justify (s3_track s t) t) t)
      t n (prevInLine s.tokens n) (nextInLine s.tokens n)).tokens.get? n).map
        (fun v => (v.fix.ensure_ws_before, v.fix.ensure_ws_after)) =
      some (true, true) := by
    unfold kindAssignment
    rw [if_pos hact]
    dsimp only
    split
    · simp [emit, setTokFix, listModify_getElem?, h0]
    · split
      · simp [emit, setTokFix, listModify_getElem?, h0]
      · simp [emit, setTokFix, listModify_getElem?, h0]
  obtain ⟨u2, hu2, hu2f⟩ := map_eq_some_elim hkc
  have hlast : StateLe
      (kindAssignment cfg (s3_copyright cfg (s3_justify (s3_track s t) t) t)
        t n (prevInLine s.tokens n) (nextInLine s.tokens n)) _ :=
    StateLe_trans (StateLe_s3_dangerous cfg _ t n (nextInLine s.tokens n))
      (StateLe_s3_indent cfg _ t n)
  exact TokensLe_assign_flags hlast.2 hu2
    (by simpa using congrArg Prod.fst hu2f)
    (by simpa using congrArg Prod.snd hu2f)

/-- One step on a non-anonymous token carrying `flag_continuations`
followed in line by a CONTINUATION: the dangerous-continuation
diagnostic is emitted with `fixed` equal to the rule's activation. -/
theorem step_dangerous_mem (cfg : Cfg) (cc : List Char) (s : S3State)
    (n : Nat) (t nx : Token)
    (ht : s.tokens.get? n = some t) (ha : t.anonymous = false)
    (hf : t.fix.flag_continuations = true)
    (hnx : s.tokens.get? (n + 1) = some nx) (hk : nx.kind = "CONTINUATION")
    (hl : nx.location.line = t.location.line) :
    (⟨nx.location, "this continuation is dangerously misleading",
      cfg.active "dangerous_continuation"⟩ : Diagnostic) ∈
      (stage3_step cfg cc s n).diags := by
  rw [stage3_step_eq cfg cc s n t ht ha]
  have hninl := nextInLine_eq ht hnx hl (by rw [hk]; decide)
  rw [hninl]
  obtain ⟨d', hd'⟩ := (StateLe_s3_indent cfg _ t n).1
  rw [hd', s3_dangerous_diags _ _ _ _ _ _ hf hk]
  simp

/-- One step under the dangerous-continuation conditions clears the
flagged token's `add_newline`. -/
theorem step_dangerous_addnl (cfg : Cfg) (cc : List Char) (s : S3State)
    (n : Nat) (t nx : Token)
    (ht : s.tokens.get? n = some t) (ha : t.anonymous = false)
    (hf : t.fix.flag_continuations = true)
    (hnx : s.tokens.get? (n + 1) = some nx) (hk : nx.kind = "CONTINUATION")
    (hl : nx.location.line = t.location.line) :
    ((stage3_step cfg cc s n).tokens.get? n).map
        (fun v => v.fix.add_newline) = some false := by
  rw [stage3_step_eq cfg cc s n t ht ha]
  have hninl := nextInLine_eq ht hnx hl (by rw [hk]; decide)
  rw [hninl]
  have h0 : (s3_copyright cfg (s3_justify (s3_track s t) t) t).tokens.get? n =
      some t := by
    rw [pre_kind_tokens]
    exact ht
  obtain ⟨u4, hu4, _⟩ := TokensLe_get
    (StateLe_s3_kind cfg cc _ t n (prevInLine s.tokens n)
      (some (nx, nx.location.col_start - t.location.col_end - 1))
      (prevTokenAt s.tokens n) (s.tokens.get? (n + 1))).2 h0
  have hdan := s3_dangerous_addnl cfg
    (s3_kind cfg cc (s3_copyright cfg (s3_justify (s3_track s t) t) t) t n
      (prevInLine s.tokens n)
      (some (nx, nx.location.col_start - t.location.col_end - 1))
      (prevTokenAt s.tokens n) (s.tokens.get? (n + 1)))
    t n nx (nx.location.col_start - t.location.col_end - 1) hf hk
  rw [hu4] at hdan
  obtain ⟨u5, hu5, hu5f⟩ := map_eq_some_elim hdan
  exact TokensLe_addnl_false (StateLe_s3_indent cfg _ t n).2 hu5 hu5f

/-- Claim C1, counterexample: on `a=1;` with only `whitespace_assignment`
active, stage 3 does not emit "= must be succeeded by whitespace" — the
`elif` in the ASSIGNMENT branch emits only the before-side diagnostic. -/
theorem C1_counterexample :
    ¬ ("= must be succeeded by whitespace" ∈
        (stage_3_analysis cfgWAssign [] tokensA1 false).diags.map
          Diagnostic.message) := by
  decide

/-- Claim C1, amended: on `a=1;` with `whitespace_assignment` active,
stage 3 emits exactly one diagnostic, "= must be preceeded by
whitespace", on the ASSIGNMENT token (the before-side check takes
precedence through the `elif`), and schedules the auto-fix by setting
`ensure_ws_before` and `ensure_ws_after` on that token. -/
theorem C1_amended :
    (stage_3_analysis cfgWAssign [] tokensA1 false).diags =
      [⟨⟨"test.m", 1, 1, 1, "a=1;"⟩, "= must be preceeded by whitespace", true⟩] ∧
    ((stage_3_analysis cfgWAssign [] tokensA1 false).tokens.get? 1).map
        (fun t => (t.fix.ensure_ws_before, t.fix.ensure_ws_after)) =
      some (true, true) := by
  decide

/-- Claim C3, counterexample: a diagnostic can be emitted at an
anonymous token — the dangerous-continuation check diagnoses the
following continuation without consulting its `anonymous` flag. -/
theorem C3_counterexample :
    ∃ d ∈ (stage_3_analysis cfgAllOff [] tokensDanger false).diags,
      ∃ t ∈ tokensDanger, t.anonymous = true ∧ d.location = t.location := by
  decide

/-- Claim C3, amended: stage 3 skips a token whose anonymous flag is
set after statement-start and justification bookkeeping — processing
such a token emits no diagnostic and changes no token — but checks that
diagnose a neighbouring token (`dangerous_continuation`,
`operator_after_continuation`) do not consult the neighbour's anonymous
flag, so a diagnostic can still land at an anonymous token's location. -/
theorem C3_amended (cfg : Cfg) (cc : List Char) (s : S3State) (n : Nat)
    (t : Token) (ht : s.tokens.get? n = some t) (ha : t.anonymous = true) :
    (stage3_step cfg cc s n).diags = s.diags ∧
    (stage3_step cfg cc s n).tokens = s.tokens := by
  unfold stage3_step
  simp only [ht, ha, if_true]
  constructor
  · rw [s3_justify_diags, s3_track_diags]
  · rw [s3_justify_tokens, s3_track_tokens]

/-- Witness for C3: processing the anonymous continuation of
`tokensDanger` (index 1) leaves diagnostics and tokens unchanged. -/
theorem C3_amended_witness :
    (stage3_step cfgAllOff [] (s3_init cfgAllOff tokensDanger false) 1).diags =
      (s3_init cfgAllOff tokensDanger false).diags ∧
    (stage3_step cfgAllOff [] (s3_init cfgAllOff tokensDanger false) 1).tokens =
      (s3_init cfgAllOff tokensDanger false).tokens :=
  C3_amended cfgAllOff [] (s3_init cfgAllOff tokensDanger false) 1
    { kind := "CONTINUATION", value := "...", raw_text := "...",
      location := ⟨"test.m", 1, 3, 5, ""⟩, anonymous := true }
    (by decide) (by decide)

/-- Claim C5: for every token carrying `flag_continuations` whose next
same-line token is a CONTINUATION (processed by stage 3, i.e. not
anonymous), the diagnostic "this continuation is dangerously
misleading" is emitted at the continuation's location with
`fixed` true exactly when `dangerous_continuation` is enabled — the
emission itself happens regardless; the flagged token's `add_newline`
is cleared in both cases; and the check sets the continuation's
`replace_with_newline` only when the rule is enabled, leaving it
unchanged otherwise. -/
theorem C5_dangerous_continuation (cfg : Cfg) (cc : List Char)
    (toks : List Token) (emb : Bool) (n : Nat) (t nx : Token)
    (ht : toks.get? n = some t) (ha : t.anonymous = false)
    (hf : t.fix.flag_continuations = true)
    (hnx : toks.get? (n + 1) = some nx) (hk : nx.kind = "CONTINUATION")
    (hl : nx.location.line = t.location.line) :
    (⟨nx.location, "this continuation is dangerously misleading",
      cfg.active "dangerous_continuation"⟩ : Diagnostic) ∈
      (stage_3_analysis cfg cc toks emb).diags ∧
    ((stage_3_analysis cfg cc toks emb).tokens.get? n).map
        (fun v => v.fix.add_newline) = some false ∧
    (∀ (s : S3State) (t' nx' : Token) (w : Int),
      t'.fix.flag_continuations = true → nx'.kind = "CONTINUATION" →
      (s3_dangerous cfg s t' n (some (nx', w))).diags =
        s.diags ++ [⟨nx'.location,
          "this continuation is dangerously misleading",
          cfg.active "dangerous_continuation"⟩] ∧
      ((s3_dangerous cfg s t' n (some (nx', w))).tokens.get? (n + 1)).map
          (fun v => v.fix.replace_with_newline) =
        (s.tokens.get? (n + 1)).map
          (fun v => cfg.active "dangerous_continuation" ||
            v.fix.replace_with_newline)) := by
  have hlen : n < toks.length := by
    by_contra hc
    rw [List.get?_eq_none.mpr (by omega)] at ht
    exact absurd ht (by simp)
  have hpre : StateLe (s3_init cfg toks emb)
      (s3_run cfg cc (s3_init cfg toks emb) (List.range n)) :=
    StateLe_s3_run cfg cc _ _
  obtain ⟨t', ht', hle⟩ := TokensLe_get hpre.2 ht
  obtain ⟨nx', hnx', hleN⟩ := TokensLe_get hpre.2 hnx
  obtain ⟨hkind, hval, hloc, hfil, hfis, hanon, hblock, hast, huop, hbop,
    hterm, hflag⟩ := skel_eq_fields hle.1
  obtain ⟨hkindN, hvalN, hlocN, hfilN, hfisN, hanonN, hblockN, hastN, huopN,
    hbopN, htermN, hflagN⟩ := skel_eq_fields hleN.1
  have hsplit := s3_run_range_split cfg cc (s3_init cfg toks emb) n
    toks.length hlen
  refine ⟨?_, ?_, ?_⟩
  · have hmem := step_dangerous_mem cfg cc _ n t' nx' ht'
      (hanon.trans ha) (hflag.trans hf) hnx' (hkindN.trans hk)
      (by rw [hlocN, hloc]; exact hl)
    rw [hlocN] at hmem
    show _ ∈ (s3_run cfg cc (s3_init cfg toks emb)
      (List.range toks.length)).diags
    rw [hsplit]
    exact StateLe_mem_diags (StateLe_s3_run cfg cc _ _) hmem
  · have haddnl := step_dangerous_addnl cfg cc _ n t' nx' ht'
      (hanon.trans ha) (hflag.trans hf) hnx' (hkindN.trans hk)
      (by rw [hlocN, hloc]; exact hl)
    obtain ⟨u, hu, huf⟩ := map_eq_some_elim haddnl
    show ((s3_run cfg cc (s3_init cfg toks emb)
      (List.range toks.length)).tokens.get? n).map
        (fun v => v.fix.add_newline) = some false
    rw [hsplit]
    exact TokensLe_addnl_false (StateLe_s3_run cfg cc _ _).2 hu huf
  · intro s' t'' nx'' w hf'' hk''
    exact ⟨s3_dangerous_diags cfg s' t'' n nx'' w hf'' hk'',
      s3_dangerous_replace cfg s' t'' n nx'' w hf'' hk''⟩

/-- Witness for C5: in `tokensDanger` with everything disabled, the
dangerous-continuation diagnostic is still emitted (with
`fixed = false`) at the continuation's location. -/
theorem C5_dangerous_continuation_witness :
    (⟨⟨"test.m", 1, 3, 5, ""⟩, "this continuation is dangerously misleading",
      false⟩ : Diagnostic) ∈
      (stage_3_analysis cfgAllOff [] tokensDanger false).diags :=
  (C5_dangerous_continuation cfgAllOff [] tokensDanger false 0
    { kind := "KEYWORD", value := "if", raw_text := "if",
      location := ⟨"test.m", 1, 0, 1, ""⟩,
      first_in_line := true, first_in_statement := true,
      fix := { flag_continuations := true } }
    { kind := "CONTINUATION", value := "...", raw_text := "...",
      location := ⟨"test.m", 1, 3, 5, ""⟩, anonymous := true }
    rfl rfl rfl rfl rfl rfl).1

/-- Claim C6: with `useless_continuation` active, a (non-anonymous)
CONTINUATION whose next token is a NEWLINE or COMMENT is diagnosed
"useless line continuation" and gets `replace_with_newline`; one whose
previous token is a statement terminator (and which is not in the first
case) is diagnosed the same and gets `delete`; and when the first
condition holds the check leaves `delete` untouched, so
`replace_with_newline` is the fix applied. -/
theorem C6_useless_continuation (cfg : Cfg) (cc : List Char)
    (toks : List Token) (emb : Bool) (n : Nat) (t : Token)
    (ht : toks.get? n = some t) (ha : t.anonymous = false)
    (hk : t.kind = "CONTINUATION")
    (hact : cfg.active "useless_continuation" = true) :
    (∀ nx, toks.get? (n + 1) = some nx →
      nx.kind = "NEWLINE" ∨ nx.kind = "COMMENT" →
      (⟨t.location, "useless line continuation", true⟩ : Diagnostic) ∈
        (stage_3_analysis cfg cc toks emb).diags ∧
      ((stage_3_analysis cfg cc toks emb).tokens.get? n).map
          (fun v => v.fix.replace_with_newline) = some true) ∧
    ((∀ nx, toks.get? (n + 1) = some nx →
        nx.kind ≠ "NEWLINE" ∧ nx.kind ≠ "COMMENT") →
      ∀ p, prevTokenAt toks n = some p → p.fix.statement_terminator = true →
      (⟨t.location, "useless line continuation", true⟩ : Diagnostic) ∈
        (stage_3_analysis cfg cc toks emb).diags ∧
      ((stage_3_analysis cfg cc toks emb).tokens.get? n).map
          (fun v => v.fix.delete) = some true) ∧
    (∀ (s : S3State) (t' : Token) (pT nT : Option Token),
      (match nT with
       | some nx => nx.kind == "NEWLINE" || nx.kind == "COMMENT"
       | none => false) = true →
      ((contUselessCheck cfg s t' n pT nT).tokens.get? n).map
          (fun v => v.fix.delete) =
        (s.tokens.get? n).map (fun v => v.fix.delete)) := by
  have hlen : n < toks.length := by
    by_contra hc
    rw [List.get?_eq_none.mpr (by omega)] at ht
    exact absurd ht (by simp)
  have hpre : StateLe (s3_init cfg toks emb)
      (s3_run cfg cc (s3_init cfg toks emb) (List.range n)) :=
    StateLe_s3_run cfg cc _ _
  obtain ⟨t', ht', hle⟩ := TokensLe_get hpre.2 ht
  obtain ⟨hkind, hval, hloc, hfil, hfis, hanon, hblock, hast, huop, hbop,
    hterm, hflag⟩ := skel_eq_fields hle.1
  have hsplit := s3_run_range_split cfg cc (s3_init cfg toks emb) n
    toks.length hlen
  refine ⟨?_, ?_, ?_⟩
  · intro nx hnx hnk
    obtain ⟨nx', hnx', hleN⟩ := TokensLe_get hpre.2 hnx
    have hkindN := (skel_eq_fields hleN.1).1
    have hstep := step_useless_next cfg cc _ n t' nx' ht'
      (hanon.trans ha) (hkind.trans hk) hact hnx'
      (by rw [hkindN]; exact hnk)
    rw [hloc] at hstep
    constructor
    · show _ ∈ (s3_run cfg cc (s3_init cfg toks emb)
        (List.range toks.length)).diags
      rw [hsplit]
      exact StateLe_mem_diags (StateLe_s3_run cfg cc _ _) hstep.1
    · obtain ⟨u, hu, huf⟩ := map_eq_some_elim hstep.2
      show ((s3_run cfg cc (s3_init cfg toks emb)
        (List.range toks.length)).tokens.get? n).map
          (fun v => v.fix.replace_with_newline) = some true
      rw [hsplit]
      exact TokensLe_replace_true (StateLe_s3_run cfg cc _ _).2 hu huf
  · intro hnone p hp hpterm
    have hcond : (match (s3_run cfg cc (s3_init cfg toks emb)
        (List.range n)).tokens.get? (n + 1) with
        | some nx' => nx'.kind == "NEWLINE" || nx'.kind == "COMMENT"
        | none => false) = false := by
      cases hq : toks.get? (n + 1) with
      | none => rw [TokensLe_get_none hpre.2 hq]
      | some nx =>
        obtain ⟨nx', hnx', hleN⟩ := TokensLe_get hpre.2 hq
        have hkindN := (skel_eq_fields hleN.1).1
        rw [hnx']
        obtain ⟨h1, h2⟩ := hnone nx hq
        simp [hkindN, h1, h2]
    have hprev : (match prevTokenAt (s3_run cfg cc (s3_init cfg toks emb)
        (List.range n)).tokens n with
        | some q => q.fix.statement_terminator
        | none => false) = true := by
      cases n with
      | zero => simp [prevTokenAt] at hp
      | succ m =>
        have hp' : toks.get? m = some p := hp
        obtain ⟨p', hp'', hleP⟩ := TokensLe_get hpre.2 hp'
        have htermP := (skel_eq_fields hleP.1).2.2.2.2.2.2.2.2.2.2.1
        show (match (s3_run cfg cc (s3_init cfg toks emb)
          (List.range (m + 1))).tokens.get? m with
          | some q => q.fix.statement_terminator
          | none => false) = true
        rw [hp'']
        simpa [htermP] using hpterm
    have hstep := step_useless_term cfg cc _ n t' ht'
      (hanon.trans ha) (hkind.trans hk) hact hcond hprev
    rw [hloc] at hstep
    constructor
    · show _ ∈ (s3_run cfg cc (s3_init cfg toks emb)
        (List.range toks.length)).diags
      rw [hsplit]
      exact StateLe_mem_diags (StateLe_s3_run cfg cc _ _) hstep.1
    · obtain ⟨u, hu, huf⟩ := map_eq_some_elim hstep.2
      show ((s3_run cfg cc (s3_init cfg toks emb)
        (List.range toks.length)).tokens.get? n).map
          (fun v => v.fix.delete) = some true
      rw [hsplit]
      exact TokensLe_delete_true (StateLe_s3_run cfg cc _ _).2 hu huf
  · intro s' t'' pT nT hcond
    exact (contUseless_next cfg s' t'' n pT nT hact hcond).2.2

/-- Witness for C6: in `tokensUseless` (continuation before a newline,
`useless_continuation` on) the diagnostic is emitted and the
continuation's `replace_with_newline` is set. -/
theorem C6_useless_continuation_witness :
    (⟨⟨"test.m", 1, 2, 4, "x ..."⟩, "useless line continuation", true⟩ :
      Diagnostic) ∈
      (stage_3_analysis cfgUseless [] tokensUseless false).diags ∧
    ((stage_3_analysis cfgUseless [] tokensUseless false).tokens.get? 1).map
        (fun v => v.fix.replace_with_newline) = some true :=
  (C6_useless_continuation cfgUseless [] tokensUseless false 1
    { kind := "CONTINUATION", value := "...", raw_text := "...",
      location := ⟨"test.m", 1, 2, 4, "x ..."⟩ }
    rfl rfl rfl rfl).1
    { kind := "NEWLINE", location := ⟨"test.m", 1, 5, 5, "x ..."⟩ }
    rfl (Or.inl rfl)

/-- Claim C10: with `whitespace_comma` active, stage 3 sets
`ensure_trim_before` and `ensure_ws_after` on every COMMA token it
processes, and with `whitespace_assignment` active it sets
`ensure_ws_before` and `ensure_ws_after` on every ASSIGNMENT token,
even when no diagnostic is emitted; in particular the COMMA branch
emits nothing when neither diagnosed shape is violated (for example a
comma followed by two spaces), so such tokens are normalized silently
by the replayer. -/
theorem C10_silent_normalization (cfg : Cfg) (cc : List Char)
    (toks : List Token) (emb : Bool) :
    (∀ n t, toks.get? n = some t → t.anonymous = false →
      t.kind = "COMMA" → cfg.active "whitespace_comma" = true →
      ((stage_3_analysis cfg cc toks emb).tokens.get? n).map
          (fun v => (v.fix.ensure_trim_before, v.fix.ensure_ws_after)) =
        some (true, true)) ∧
    (∀ n t, toks.get? n = some t → t.anonymous = false →
      t.kind = "ASSIGNMENT" → cfg.active "whitespace_assignment" = true →
      ((stage_3_analysis cfg cc toks emb).tokens.get? n).map
          (fun v => (v.fix.ensure_ws_before, v.fix.ensure_ws_after)) =
        some (true, true)) ∧
    (∀ (s : S3State) (t : Token) (n : Nat)
        (pinl ninl : Option (Token × Int)),
      cfg.active "whitespace_comma" = true →
      (wsEqB ninl 0 || wsGtB pinl 0) = false →
      (kindComma cfg s t n pinl ninl).diags = s.diags) := by
  refine ⟨?_, ?_, ?_⟩
  · intro n t ht ha hk hact
    have hlen : n < toks.length := by
      by_contra hc
      rw [List.get?_eq_none.mpr (by omega)] at ht
      exact absurd ht (by simp)
    have hpre : StateLe (s3_init cfg toks emb)
        (s3_run cfg cc (s3_init cfg toks emb) (List.range n)) :=
      StateLe_s3_run cfg cc _ _
    obtain ⟨t', ht', hle⟩ := TokensLe_get hpre.2 ht
    obtain ⟨hkind, hval, hloc, hfil, hfis, hanon, hblock, hast, huop, hbop,
      hterm, hflag⟩ := skel_eq_fields hle.1
    have hstep := step_comma_sets cfg cc _ n t' ht'
      (hanon.trans ha) (hkind.trans hk) hact
    obtain ⟨u, hu, huf⟩ := map_eq_some_elim hstep
    show ((s3_run cfg cc (s3_init cfg toks emb)
      (List.range toks.length)).tokens.get? n).map
        (fun v => (v.fix.ensure_trim_before, v.fix.ensure_ws_after)) =
      some (true, true)
    rw [s3_run_range_split cfg cc (s3_init cfg toks emb) n toks.length hlen]
    exact TokensLe_comma_flags (StateLe_s3_run cfg cc _ _).2 hu
      (by simpa using congrArg Prod.fst huf)
      (by simpa using congrArg Prod.snd huf)
  · intro n t ht ha hk hact
    have hlen : n < toks.length := by
      by_contra hc
      rw [List.get?_eq_none.mpr (by omega)] at ht
      exact absurd ht (by simp)
    have hpre : StateLe (s3_init cfg toks emb)
        (s3_run cfg cc (s3_init cfg toks emb) (List.range n)) :=
      StateLe_s3_run cfg cc _ _
    obtain ⟨t', ht', hle⟩ := TokensLe_get hpre.2 ht
    obtain ⟨hkind, hval, hloc, hfil, hfis, hanon, hblock, hast, huop, hbop,
      hterm, hflag⟩ := skel_eq_fields hle.1
    have hstep := step_assignment_sets cfg cc _ n t' ht'
      (hanon.trans ha) (hkind.trans hk) hact
    obtain ⟨u, hu, huf⟩ := map_eq_some_elim hstep
    show ((s3_run cfg cc (s3_init cfg toks emb)
      (List.range toks.length)).tokens.get? n).map
        (fun v => (v.fix.ensure_ws_before, v.fix.ensure_ws_after)) =
      some (true, true)
    rw [s3_run_range_split cfg cc (s3_init cfg toks emb) n toks.length hlen]
    exact TokensLe_assign_flags (StateLe_s3_run cfg cc _ _).2 hu
      (by simpa using congrArg Prod.fst huf)
      (by simpa using congrArg Prod.snd huf)
  · intro s t n pinl ninl hact hcond
    unfold kindComma
    rw [if_pos hact]
    dsimp only
    rw [if_neg (by simp [hcond])]
    rfl

/-- Witness for C10: in `a,  b` (comma followed by two spaces) with
`whitespace_comma` on, the comma's directives are set while the whole
analysis emits no diagnostic at all. -/
theorem C10_silent_normalization_witness :
    ((stage_3_analysis cfgWComma [] tokensComma false).tokens.get? 1).map
        (fun v => (v.fix.ensure_trim_before, v.fix.ensure_ws_after)) =
      some (true, true) ∧
    (stage_3_analysis cfgWComma [] tokensComma false).diags = [] :=
  ⟨(C10_silent_normalization cfgWComma [] tokensComma false).1 1
    { kind := "COMMA", value := ",", raw_text := ",",
      location := ⟨"test.m", 1, 1, 1, "a,  b"⟩ }
    rfl rfl rfl rfl, by decide⟩

/-- Claim C9: a file whose text is only whitespace (or empty) returns
right after lexer construction — no stage runs, nothing is emitted and
nothing is written, even with `--fix`. -/
theorem C9_whitespace_only_skip (wp : WorkPackage)
    (h : (pyStrip wp.content).length = 0) :
    process_wp wp = { diags := [], errors := [], wrote := none } := by
  unfold process_wp
  rw [if_pos h]

/-- Witness for C9: the whitespace-only work package `wpBlank`
(processed with `--fix`) produces nothing. -/
theorem C9_whitespace_only_skip_witness :
    process_wp wpBlank = { diags := [], errors := [], wrote := none } :=
  C9_whitespace_only_skip wpBlank (by decide)

/-- Claim C8: with `--fix` set (on a file that is lexed), a parse
failure yields exactly one non-fatal error "file is not auto-fixed
because it contains parse errors" and no write; a parse success writes
the replayed token buffer (the stage-3 output buffer handed to
`tbuf.replay()`). -/
theorem C8_fix_parse_errors (wp : WorkPackage)
    (hne : ¬(pyStrip wp.content).length = 0) (hlex : wp.lex_ok = true)
    (hfix : wp.fix = true) :
    (wp.parse_ok = false →
      (process_wp wp).errors =
        [("file is not auto-fixed because it contains parse errors", false)] ∧
      (process_wp wp).wrote = none) ∧
    (wp.parse_ok = true →
      (process_wp wp).errors = [] ∧
      (process_wp wp).wrote = some (stage_3_analysis wp.cfg wp.comment_char
        wp.tokens wp.is_embedded).tokens) := by
  unfold process_wp
  rw [if_neg hne]
  dsimp only
  rw [if_neg (by simp [hlex]), if_pos hfix]
  constructor
  · intro hp
    rw [if_pos hp]
    exact ⟨rfl, rfl⟩
  · intro hp
    rw [if_neg (by simp [hp])]
    exact ⟨rfl, rfl⟩

/-- Witness for C8: the failing-parse work package `wpParseFail` gets
the single non-fatal error and no write. -/
theorem C8_fix_parse_errors_witness :
    (process_wp wpParseFail).errors =
      [("file is not auto-fixed because it contains parse errors", false)] ∧
    (process_wp wpParseFail).wrote = none :=
  (C8_fix_parse_errors wpParseFail (by decide) rfl rfl).1 rfl

/-- `List.any` of a disjunction splits. -/
theorem list_any_or (l : List Token) (p q : Token → Bool) :
    l.any (fun u => p u || q u) = (l.any p || l.any q) := by
  induction l with
  | nil => rfl
  | cons a l ih =>
    simp [List.any_cons, ih, Bool.or_assoc, Bool.or_left_comm]

/-- State of the copyright scan after the leading comments: the header
flags summarize which comments conformed, mentioned a configured
entity, or matched loosely. -/
theorem copyrightScan_state (cfg : Cfg) (ts : List Token) :
    ∀ (s : S3State), s.in_copyright_notice = true →
    (∀ u ∈ ts, u.kind = "COMMENT") →
    (copyrightScan cfg s ts).in_copyright_notice = true ∧
    (copyrightScan cfg s ts).copyright_notice =
      s.copyright_notice ++ ts.map Token.value ∧
    (copyrightScan cfg s ts).generic_copyright_found =
      (s.generic_copyright_found || ts.any (fun u => conformsB u.value)) ∧
    (copyrightScan cfg s ts).company_copyright_found =
      (s.company_copyright_found ||
        ts.any (fun u => conformsCompanyB cfg u.value)) ∧
    (copyrightScan cfg s ts).copyright_token.isSome =
      (s.copyright_token.isSome ||
        ts.any (fun u => conformsB u.value || looseCopyrightHit cfg u.value)) ∧
    (copyrightScan cfg s ts).diags = s.diags := by
  induction ts with
  | nil =>
    intro s hin _
    simp [copyrightScan, hin]
  | cons u us ih =>
    intro s hin hts
    have hu : u.kind = "COMMENT" := hts u (List.mem_cons_self u us)
    have hstep : copyrightScan cfg s (u :: us) =
        copyrightScan cfg (s3_copyright cfg s u) us := rfl
    rw [hstep]
    cases hs : copyrightSearch u.value.data with
    | some org =>
      have h1 : s3_copyright cfg s u =
          { s with
            copyright_token := some u
            generic_copyright_found := true
            company_copyright_found := s.company_copyright_found ||
              cfg.copyright_entity.contains (String.mk (pyStripL org))
            copyright_notice := s.copyright_notice ++ [u.value] } := by
        unfold s3_copyright
        rw [if_pos hin, if_pos (by rw [hu]; rfl), hs]
      obtain ⟨i1, i2, i3, i4, i5, i6⟩ := ih (s3_copyright cfg s u)
        (by rw [h1]; exact hin)
        (fun v hv => hts v (List.mem_cons_of_mem u hv))
      have hcb : conformsB u.value = true := by simp [conformsB, hs]
      have hcc : conformsCompanyB cfg u.value =
          cfg.copyright_entity.contains (String.mk (pyStripL org)) := by
        simp [conformsCompanyB, hs]
      refine ⟨i1, ?_, ?_, ?_, ?_, ?_⟩
      · rw [i2, h1]
        simp
      · rw [i3, h1]
        simp [hcb]
      · rw [i4, h1]
        simp [hcc, Bool.or_assoc]
      · rw [i5, h1]
        simp [hcb]
      · rw [i6, h1]
    | none =>
      have h1 : s3_copyright cfg s u =
          if s.copyright_token.isNone && looseCopyrightHit cfg u.value then
            { s with
              copyright_token := some u
              copyright_notice := s.copyright_notice ++ [u.value] }
          else { s with copyright_notice := s.copyright_notice ++ [u.value] }
          := by
        unfold s3_copyright
        rw [if_pos hin, if_pos (by rw [hu]; rfl), hs]
        dsimp only
        split
        · rfl
        · rfl
      have hcb : conformsB u.value = false := by simp [conformsB, hs]
      have hccf : conformsCompanyB cfg u.value = false := by
        simp [conformsCompanyB, hs]
      obtain ⟨i1, i2, i3, i4, i5, i6⟩ := ih (s3_copyright cfg s u)
        (by rw [h1]; split <;> exact hin)
        (fun v hv => hts v (List.mem_cons_of_mem u hv))
      cases hc : (s.copyright_token.isNone && looseCopyrightHit cfg u.value) with
      | true =>
        have hnone : s.copyright_token.isNone = true := by
          cases hq : s.copyright_token.isNone with
          | true => rfl
          | false => rw [hq] at hc; simp at hc
        have hloose : looseCopyrightHit cfg u.value = true := by
          cases hq : looseCopyrightHit cfg u.value with
          | true => rfl
          | false => rw [hq] at hc; simp at hc
        have hnotSome : s.copyright_token.isSome = false := by
          cases hq : s.copyright_token with
          | none => rfl
          | some c => rw [hq] at hnone; simp at hnone
        have h2 : s3_copyright cfg s u =
            { s with
              copyright_token := some u
              copyright_notice := s.copyright_notice ++ [u.value] } := by
          rw [h1, if_pos hc]
        refine ⟨i1, ?_, ?_, ?_, ?_, ?_⟩
        · rw [i2, h2]
          simp
        · rw [i3, h2]
          simp [hcb]
        · rw [i4, h2]
          simp [hccf, Bool.or_assoc]
        · rw [i5, h2]
          simp [hnotSome, hcb, hloose]
        · rw [i6, h2]
      | false =>
        have h2 : s3_copyright cfg s u =
            { s with copyright_notice := s.copyright_notice ++ [u.value] } := by
          rw [h1, if_neg (by simp [hc])]
        refine ⟨i1, ?_, ?_, ?_, ?_, ?_⟩
        · rw [i2, h2]
          simp
        · rw [i3, h2]
          simp [hcb]
        · rw [i4, h2]
          simp [hccf, Bool.or_assoc]
        · rw [i5, h2]
          cases hq : s.copyright_token.isNone with
          | false =>
            have hsome : s.copyright_token.isSome = true := by
              cases hq2 : s.copyright_token with
              | none => rw [hq2] at hq; simp at hq
              | some c => rfl
            simp [hsome]
          | true =>
            have hloose : looseCopyrightHit cfg u.value = false := by
              cases hq2 : looseCopyrightHit cfg u.value with
              | false => rfl
              | true => rw [hq, hq2] at hc; simp at hc
            simp [hcb, hloose]
        · rw [i6, h2]

/-- Claim C4: when copyright header recognition is active, the
recognizer emits at the first non-comment token exactly the diagnostic
determined by priority: no comments at all, silence for a conforming
notice naming a configured entity, "Copyright does not mention one of
..." for a conforming notice without an entity match (only when
`copyright_entity` is non-empty), "Copyright notice not in right
format" for a loose match only, and "No copyright notice found in
header" otherwise. -/
theorem C4_copyright_priority (cfg : Cfg) (toks : List Token) (emb : Bool)
    (ts : List Token) (t : Token)
    (hts : ∀ u ∈ ts, u.kind = "COMMENT") (htk : t.kind ≠ "COMMENT")
    (hin : (s3_init cfg toks emb).in_copyright_notice = true) :
    (s3_copyright cfg (copyrightScan cfg (s3_init cfg toks emb) ts) t).diags.map
        Diagnostic.message =
      (if ts.isEmpty then
        ["file does not appear to contain any copyright header"]
      else if ts.any (fun u => conformsCompanyB cfg u.value) then []
      else if ts.any (fun u => conformsB u.value) then
        (if cfg.copyright_entity.isEmpty then []
         else ["Copyright does not mention one of " ++
           " or ".intercalate cfg.copyright_entity])
      else if ts.any (fun u => looseCopyrightHit cfg u.value) then
        ["Copyright notice not in right format"]
      else ["No copyright notice found in header"]) := by
  obtain ⟨i1, i2, i3, i4, i5, i6⟩ :=
    copyrightScan_state cfg ts (s3_init cfg toks emb) hin hts
  have hend : (s3_copyright cfg (copyrightScan cfg (s3_init cfg toks emb) ts)
      t).diags =
      (copyrightScan cfg (s3_init cfg toks emb) ts).diags ++
        copyrightEndDiags cfg (copyrightScan cfg (s3_init cfg toks emb) ts)
          t := by
    unfold s3_copyright
    rw [if_pos i1, if_neg (by simp [htk])]
  rw [hend, i6]
  have hdinit : (s3_init cfg toks emb).diags = [] := rfl
  rw [hdinit]
  simp only [List.nil_append]
  unfold copyrightEndDiags
  have h2 : (copyrightScan cfg (s3_init cfg toks emb) ts).copyright_notice =
      ts.map Token.value := by simpa using i2
  have h3 : (copyrightScan cfg (s3_init cfg toks emb)
      ts).generic_copyright_found = ts.any (fun u => conformsB u.value) := by
    simpa using i3
  have h4 : (copyrightScan cfg (s3_init cfg toks emb)
      ts).company_copyright_found =
      ts.any (fun u => conformsCompanyB cfg u.value) := by simpa using i4
  have h5 : (copyrightScan cfg (s3_init cfg toks emb)
      ts).copyright_token.isSome =
      ts.any (fun u => conformsB u.value || looseCopyrightHit cfg u.value) := by
    simpa using i5
  rw [h2, h3, h4]
  by_cases hempty : ts = []
  · have hA : (List.map Token.value ts).isEmpty = true := by simp [hempty]
    have hB : ts.isEmpty = true := by simp [hempty]
    rw [if_pos hA, if_pos hB]
    rfl
  · have hA : ¬((List.map Token.value ts).isEmpty = true) := by simp [hempty]
    have hB : ¬(ts.isEmpty = true) := by simp [hempty]
    rw [if_neg hA, if_neg hB]
    by_cases hcomp : ts.any (fun u => conformsCompanyB cfg u.value) = true
    · rw [if_pos hcomp, if_pos hcomp]
      rfl
    · rw [if_neg hcomp, if_neg hcomp]
      by_cases hgen : ts.any (fun u => conformsB u.value) = true
      · rw [if_pos hgen, if_pos hgen]
        by_cases hent : cfg.copyright_entity.isEmpty = true
        · have hC : ¬((!cfg.copyright_entity.isEmpty) = true) := by
            simp [hent]
          rw [if_neg hC, if_pos hent]
          rfl
        · have hC : (!cfg.copyright_entity.isEmpty) = true := by
            cases hq : cfg.copyright_entity.isEmpty with
            | true => exact absurd hq hent
            | false => rfl
          rw [if_pos hC, if_neg hent]
          cases hct : (copyrightScan cfg (s3_init cfg toks emb)
              ts).copyright_token <;> rfl
      · rw [if_neg hgen, if_neg hgen]
        rw [list_any_or] at h5
        have hgen' : ts.any (fun u => conformsB u.value) = false := by
          revert hgen
          cases ts.any (fun u => conformsB u.value) <;> simp
        rw [hgen', Bool.false_or] at h5
        by_cases hloose : ts.any (fun u => looseCopyrightHit cfg u.value) = true
        · rw [if_pos hloose]
          have hsome : (copyrightScan cfg (s3_init cfg toks emb)
              ts).copyright_token.isSome = true := by rw [h5, hloose]
          cases hct : (copyrightScan cfg (s3_init cfg toks emb)
              ts).copyright_token with
          | none => rw [hct] at hsome; simp at hsome
          | some c => rfl
        · rw [if_neg hloose]
          have hloose' : ts.any (fun u => looseCopyrightHit cfg u.value) =
              false := by
            revert hloose
            cases ts.any (fun u => looseCopyrightHit cfg u.value) <;> simp
          have hnone : (copyrightScan cfg (s3_init cfg toks emb)
              ts).copyright_token.isSome = false := by rw [h5, hloose']
          cases hct : (copyrightScan cfg (s3_init cfg toks emb)
              ts).copyright_token with
          | none => rfl
          | some c => rw [hct] at hnone; simp at hnone

/-- Witness for C4: a header consisting of `% Copyright 2020 Acme Ltd`
with entity `Acme Ltd` configured is silent. -/
theorem C4_copyright_priority_witness :
    (s3_copyright cfgCopyright
      (copyrightScan cfgCopyright (s3_init cfgCopyright [] false)
        [tokenHeaderComment])
      tokenHeaderEnd).diags.map Diagnostic.message = [] :=
  (C4_copyright_priority cfgCopyright [] false [tokenHeaderComment]
    tokenHeaderEnd (by decide) (by decide) (by decide)).trans (by decide)

/-- Claim C7: `build_library` keeps every mandatory rule instance no
matter what the configuration says, and keeps a non-mandatory rule
exactly when the configuration activates it by name. -/
theorem C7_build_library_mandatory (cfg : Cfg) (rules : List RuleDescr)
    (r : RuleDescr) (hr : r ∈ rules) :
    (r.mandatory = true → r ∈ build_library cfg rules) ∧
    (r.mandatory = false →
      (r ∈ build_library cfg rules ↔ cfg.active r.name = true)) := by
  constructor
  · intro hm
    simp [build_library, List.mem_filter, hr, hm]
  · intro hm
    simp [build_library, List.mem_filter, hr, hm]

/-- Witness for C7 at a concrete configuration that disables
everything: the mandatory `eof_newlines` rule is still in the library. -/
theorem C7_build_library_mandatory_witness :
    rule_eof_newlines ∈ build_library
      ⟨fun _ => false, [], false, 4, 1000, 80⟩ get_rules_on_file := by
  have h := C7_build_library_mandatory
    ⟨fun _ => false, [], false, 4, 1000, 80⟩ get_rules_on_file
    rule_eof_newlines (by simp [get_rules_on_file])
  exact h.1 rfl

/-- Claim C2: with the line list being the text split on newline
(preserving empty trailing elements), `Rule_File_EOF_Lines.apply` emits
"trailing blank lines at end of file" at `(filename, #lines)` iff the
last line is empty and there are at least two lines; otherwise it emits
"file should end with a new line" iff the text is non-empty and its last
character is not a newline; otherwise it emits nothing. -/
theorem C2_eof_newlines (filename text : String) :
    Rule_File_EOF_Lines_apply filename text (splitLines text) =
      (if (splitLines text).getLast? = some "" ∧ (splitLines text).length ≥ 2
       then [⟨{ filename := filename, line := (splitLines text).length },
              "trailing blank lines at end of file", true⟩]
       else if text ≠ "" ∧ text.data.getLast? ≠ some '\n'
       then [⟨{ filename := filename, line := (splitLines text).length },
              "file should end with a new line", true⟩]
       else []) := by
  unfold Rule_File_EOF_Lines_apply
  by_cases h1 : (splitLines text).length ≥ 2 ∧ (splitLines text).getLast? = some ""
  · rw [if_pos h1, if_pos ⟨h1.2, h1.1⟩]
  · have h1' : ¬((splitLines text).getLast? = some "" ∧
        (splitLines text).length ≥ 2) := fun hc => h1 ⟨hc.2, hc.1⟩
    rw [if_neg h1, if_neg h1']
    have hlen : text.length ≠ 0 ↔ text ≠ "" := by
      constructor
      · intro h he
        exact h (by simp [he])
      · intro h hl
        exact h (String.ext (by
          have := List.length_eq_zero.mp hl
          simpa using this))
    by_cases h2 : text.length ≠ 0 ∧ text.data.getLast? ≠ some '\n'
    · have h2' : text ≠ "" ∧ text.data.getLast? ≠ some '\n' :=
        ⟨hlen.mp h2.1, h2.2⟩
      rw [if_pos h2, if_pos h2']
    · have h2' : ¬(text ≠ "" ∧ text.data.getLast? ≠ some '\n') :=
        fun hc => h2 ⟨hlen.mpr hc.1, hc.2⟩
      rw [if_neg h2, if_neg h2']
